import Mathlib

/-!
Verification of the audiobookshelf organizer against its specification.

The Python sources are shallowly embedded: strings become `List Char` /
`String`, dictionaries become association lists, fallible calls return
`Except`/`Option`, and the external world (network, tag reading,
filesystem) is passed in as explicit oracle functions.  Each claim of the
specification is then settled as a theorem about these definitions.
-/

namespace Organizer

/-! ## Python string primitives (src/utils.py)

`utils.py` works with Python `str` and the `re` module.  We model a
Python string as `List Char`.  `pySpace` is the set of characters matched
by Python's `\s` regex class on `str` (equivalently `str.isspace()`):
ASCII 0x09-0x0d, 0x1c-0x1f, space, NEL, NBSP and the Unicode space
separators.  -/

def pySpace (c : Char) : Bool :=
  c.toNat == 0x20 || (0x9 ≤ c.toNat && c.toNat ≤ 0xd) ||
  (0x1c ≤ c.toNat && c.toNat ≤ 0x1f) || c.toNat == 0x85 || c.toNat == 0xa0 ||
  c.toNat == 0x1680 || (0x2000 ≤ c.toNat && c.toNat ≤ 0x200a) ||
  c.toNat == 0x2028 || c.toNat == 0x2029 || c.toNat == 0x202f ||
  c.toNat == 0x205f || c.toNat == 0x3000

/-- The character class of `INVALID_FILENAME_CHARS_RE` (src/utils.py line
15): `[<>:"/\|?*\n\r\t]`. -/
def invalidChar (c : Char) : Bool :=
  c == '<' || c == '>' || c == ':' || c == '"' || c == '/' || c == '\\' ||
  c == '|' || c == '?' || c == '*' || c == '\n' || c == '\r' || c == '\t'

/-- Python's `$` anchor (no MULTILINE): it matches at position `j` iff
`j` is the end of the string or `j` is just before a terminating
newline. -/
def dollar (s : List Char) (j : Nat) : Bool :=
  j == s.length || (j + 1 == s.length && s.getD j ' ' == '\n')

/-- One-character match of `INVALID_FILENAME_CHARS_RE`
(`[<>:"/\|?*\n\r\t]|\.$|^\s|\s$`) at position `i` of `s`.  Every
alternative of the pattern consumes exactly one character, so
`re.sub(..., '', s)` deletes exactly the positions where this predicate
holds. -/
def reMatchAt (s : List Char) (i : Nat) : Bool :=
  invalidChar (s.getD i ' ') ||
  (s.getD i ' ' == '.' && dollar s (i + 1)) ||
  (i == 0 && pySpace (s.getD i ' ')) ||
  (pySpace (s.getD i ' ') && dollar s (i + 1))

/-- `INVALID_FILENAME_CHARS_RE.sub('', s)` (src/utils.py line 28): keep
exactly the positions where the pattern does not match. -/
def invalidSub (s : List Char) : List Char :=
  ((List.range s.length).filter (fun i => !reMatchAt s i)).map
    (fun i => s.getD i ' ')

/-- Worker for `MULTI_SPACE_RE.sub(' ', s)`: the flag records whether we
are inside a whitespace run whose single replacement space has already
been emitted. -/
def collapseAux : Bool → List Char → List Char
  | _, [] => []
  | inRun, c :: rest =>
    if pySpace c then
      if inRun then collapseAux true rest
      else ' ' :: collapseAux true rest
    else c :: collapseAux false rest

/-- `MULTI_SPACE_RE.sub(' ', s)` (src/utils.py lines 16 and 29): replace
every maximal run of `\s` characters by a single ASCII space. -/
def collapseSpaces (l : List Char) : List Char :=
  collapseAux false l

/-- Python `str.strip()` (src/utils.py line 30): drop whitespace from
both ends. -/
def pyStrip (l : List Char) : List Char :=
  (l.dropWhile pySpace).rdropWhile pySpace

/-- `sanitized.rfind(' ', 0, hi)` (src/utils.py line 32): the largest
index `j < hi` (and `j < length`) holding a space, if any. -/
def lastSpace (s : List Char) (hi : Nat) : Option Nat :=
  (List.range (min hi s.length)).reverse.find? (fun j => s.getD j ' ' == ' ')

/-- The truncation step of `sanitize_filename` (src/utils.py lines
31-36): if the string is longer than `maxLen`, cut at the last space
strictly before `maxLen` when that space exists at a positive index,
else hard-cut at `maxLen`.  Python's `rfind` returns `-1` when no space
exists and the code tests `last_space > 0`, so "no space found" and
"space at index 0" behave alike; `(lastSpace s maxLen).getD 0` mirrors
that. -/
def pyTruncate (s : List Char) (maxLen : Nat) : List Char :=
  if s.length ≤ maxLen then s
  else
    if 0 < (lastSpace s maxLen).getD 0 then s.take ((lastSpace s maxLen).getD 0)
    else s.take maxLen

/-- `sanitize_filename` from src/utils.py lines 24-37, on `List Char`. -/
def sanitizeList (l : List Char) (maxLen : Nat) : List Char :=
  if l = [] then []
  else pyTruncate (pyStrip (collapseSpaces (invalidSub l))) maxLen

/-- `utils.sanitize_filename(filename, max_length=200)`. -/
def sanitize_filename (s : String) (maxLen : Nat := 200) : String :=
  ⟨sanitizeList s.data maxLen⟩

example : sanitize_filename "a.." 200 = "a." := by decide
example : sanitize_filename "a." 200 = "a" := by decide
example : sanitize_filename " a<b>:c  d " 200 = "abc d" := by decide
example : sanitize_filename "abcd efgh" 6 = "abcd" := by decide
example : sanitize_filename "abcdefgh" 4 = "abcd" := by decide
example : sanitize_filename "a\x01b" 200 = "a\x01b" := by decide
example : sanitize_filename "a. " 200 = "a." := by decide
example : sanitize_filename "a.\n" 200 = "a" := by decide
example : sanitize_filename "ab. cd efg" 4 = "ab." := by decide
example : sanitize_filename "x\x1cy" 200 = "x y" := by decide
example : sanitize_filename ". a" 200 = ". a" := by decide
example : sanitize_filename ".." 200 = "." := by decide
example : sanitize_filename " ." 200 = "" := by decide
example : sanitize_filename "a b" 1 = "a" := by decide
example : sanitize_filename "ab cd" 3 = "ab" := by decide

/-! ### Invariants of the sanitizer pipeline -/

/-- Two adjacent characters never are both whitespace. -/
def noTwoSpaces (a b : Char) : Prop := ¬(pySpace a = true ∧ pySpace b = true)

lemma getD_eq_get (l : List Char) (i : Nat) (d : Char) (h : i < l.length) :
    l.getD i d = l.get ⟨i, h⟩ := by
  simp [List.getD_eq_getElem?_getD, List.getElem?_eq_getElem h]

lemma mem_collapseAux {c : Char} :
    ∀ (b : Bool) (l : List Char), c ∈ collapseAux b l → c = ' ' ∨ c ∈ l := by
  intro b l
  induction l generalizing b with
  | nil => simp [collapseAux]
  | cons a t ih =>
    intro hc
    by_cases ha : pySpace a
    · cases b with
      | true =>
        simp only [collapseAux, ha, if_true] at hc
        rcases ih true hc with h | h
        · exact Or.inl h
        · exact Or.inr (List.mem_cons_of_mem a h)
      | false =>
        simp only [collapseAux, ha, if_true] at hc
        rcases List.mem_cons.mp hc with h | h
        · exact Or.inl h
        · rcases ih true h with h' | h'
          · exact Or.inl h'
          · exact Or.inr (List.mem_cons_of_mem a h')
    · simp only [collapseAux, ha] at hc
      rcases List.mem_cons.mp hc with h | h
      · exact Or.inr (h ▸ List.mem_cons_self a t)
      · rcases ih false h with h' | h'
        · exact Or.inl h'
        · exact Or.inr (List.mem_cons_of_mem a h')

lemma spacesOk_collapseAux {c : Char} :
    ∀ (b : Bool) (l : List Char), c ∈ collapseAux b l → pySpace c → c = ' ' := by
  intro b l
  induction l generalizing b with
  | nil => simp [collapseAux]
  | cons a t ih =>
    intro hc hsp
    by_cases ha : pySpace a
    · cases b with
      | true =>
        simp only [collapseAux, ha, if_true] at hc
        exact ih true hc hsp
      | false =>
        simp only [collapseAux, ha, if_true] at hc
        rcases List.mem_cons.mp hc with h | h
        · exact h
        · exact ih true h hsp
    · simp only [collapseAux, ha] at hc
      rcases List.mem_cons.mp hc with h | h
      · subst h; exact absurd hsp (by simp [ha])
      · exact ih false h hsp

lemma head_collapseAux_true :
    ∀ (l : List Char), ∀ c ∈ (collapseAux true l).head?, ¬(pySpace c = true) := by
  intro l
  induction l with
  | nil => simp [collapseAux]
  | cons a t ih =>
    by_cases ha : pySpace a
    · simpa only [collapseAux, ha, if_true] using ih
    · intro c hc
      simp [collapseAux, ha] at hc
      subst hc; simp [ha]

lemma chain'_collapseAux :
    ∀ (b : Bool) (l : List Char), List.Chain' noTwoSpaces (collapseAux b l) := by
  intro b l
  induction l generalizing b with
  | nil => simp [collapseAux]
  | cons a t ih =>
    by_cases ha : pySpace a
    · cases b with
      | true => simpa only [collapseAux, ha, if_true] using ih true
      | false =>
        simp only [collapseAux, ha, if_true]
        refine List.chain'_cons'.mpr ⟨?_, ih true⟩
        intro y hy
        have := head_collapseAux_true t y hy
        exact fun hcon => this hcon.2
    · simp only [collapseAux, ha]
      refine List.chain'_cons'.mpr ⟨?_, ih false⟩
      intro y hy
      exact fun hcon => absurd hcon.1 (by simp [ha])

lemma collapseAux_eq_self :
    ∀ (l : List Char),
      (∀ c ∈ l, pySpace c → c = ' ') → List.Chain' noTwoSpaces l →
      collapseAux false l = l ∧
        ((∀ c ∈ l.head?, ¬(pySpace c = true)) → collapseAux true l = l) := by
  intro l
  induction l with
  | nil => simp [collapseAux]
  | cons a t ih =>
    intro hso hch
    have hsoT : ∀ c ∈ t, pySpace c → c = ' ' :=
      fun c hc => hso c (List.mem_cons_of_mem a hc)
    have hchT : List.Chain' noTwoSpaces t := (List.chain'_cons'.mp hch).2
    have ihT := ih hsoT hchT
    by_cases ha : pySpace a
    · have haEq : a = ' ' := hso a (List.mem_cons_self a t) ha
      have hheadT : ∀ c ∈ t.head?, ¬(pySpace c = true) := by
        intro c hc
        have hR := (List.chain'_cons'.mp hch).1 c hc
        exact fun hcon => hR ⟨ha, hcon⟩
      constructor
      · have hstep : collapseAux false (a :: t) = ' ' :: collapseAux true t := by
          simp [collapseAux, ha]
        rw [hstep, ihT.2 hheadT, haEq]
      · intro hhead
        exact absurd ha (by simpa using hhead a (by simp))
    · have hstepF : collapseAux false (a :: t) = a :: collapseAux false t := by
        simp [collapseAux, ha]
      have hstepT : collapseAux true (a :: t) = a :: collapseAux false t := by
        simp [collapseAux, ha]
      constructor
      · rw [hstepF, ihT.1]
      · intro _
        rw [hstepT, ihT.1]

lemma mem_invalidSub {c : Char} {s : List Char} (h : c ∈ invalidSub s) :
    ∃ i, i < s.length ∧ reMatchAt s i = false ∧ c = s.getD i ' ' := by
  simp only [invalidSub, List.mem_map, List.mem_filter, List.mem_range] at h
  rcases h with ⟨i, ⟨hi, hm⟩, hc⟩
  exact ⟨i, hi, by simpa using hm, hc.symm⟩

lemma invalidSub_not_invalid {c : Char} {s : List Char} (h : c ∈ invalidSub s) :
    invalidChar c = false := by
  rcases mem_invalidSub h with ⟨i, _, hm, hc⟩
  subst hc
  simp only [reMatchAt, Bool.or_eq_false_iff] at hm
  exact hm.1.1.1

lemma map_getD_range (l : List Char) (d : Char) :
    (List.range l.length).map (fun i => l.getD i d) = l := by
  induction l with
  | nil => simp
  | cons a t ih =>
    rw [List.length_cons, List.range_succ_eq_map, List.map_cons, List.map_map]
    simp only [List.getD_cons_zero, Function.comp_def, List.getD_cons_succ]
    rw [ih]

lemma invalidSub_eq_self {s : List Char}
    (h : ∀ i, i < s.length → reMatchAt s i = false) : invalidSub s = s := by
  unfold invalidSub
  rw [List.filter_eq_self.mpr, map_getD_range]
  intro i hi
  simp only [List.mem_range] at hi
  simp [h i hi]

/-- The stripped string is a contiguous slice of the input. -/
lemma pyStrip_contig (l : List Char) : pyStrip l <:+: l := by
  unfold pyStrip
  have h1 : (l.dropWhile pySpace).rdropWhile pySpace <+: l.dropWhile pySpace :=
    List.rdropWhile_prefix pySpace (l.dropWhile pySpace)
  have h2 : l.dropWhile pySpace <:+ l := List.dropWhile_suffix pySpace
  exact h1.isInfix.trans h2.isInfix

lemma head_dropWhile (p : Char → Bool) (l : List Char) :
    ∀ c ∈ (l.dropWhile p).head?, ¬(p c = true) := by
  induction l with
  | nil => simp
  | cons a t ih =>
    intro c hc
    by_cases ha : p a
    · rw [List.dropWhile_cons_of_pos ha] at hc
      exact ih c hc
    · rw [List.dropWhile_cons_of_neg ha] at hc
      simp only [List.head?_cons, Option.mem_def, Option.some.injEq] at hc
      rw [← hc]; exact ha

lemma head_pyStrip (l : List Char) :
    ∀ c ∈ (pyStrip l).head?, ¬(pySpace c = true) := by
  intro c hc
  unfold pyStrip at hc
  rcases hd : (l.dropWhile pySpace).rdropWhile pySpace with _ | ⟨a, t⟩
  · rw [hd] at hc; simp at hc
  · rw [hd] at hc
    simp only [List.head?_cons, Option.mem_def, Option.some.injEq] at hc
    have hpref : (l.dropWhile pySpace).rdropWhile pySpace <+: l.dropWhile pySpace :=
      List.rdropWhile_prefix pySpace (l.dropWhile pySpace)
    rcases hpref with ⟨r, hr⟩
    rw [hd] at hr
    have hhead : c ∈ (l.dropWhile pySpace).head? := by
      rw [← hr]; simp [hc]
    exact head_dropWhile pySpace l c hhead

lemma last_pyStrip (l : List Char) :
    ∀ c ∈ (pyStrip l).getLast?, ¬(pySpace c = true) := by
  intro c hc
  unfold pyStrip at hc
  rcases hd : (l.dropWhile pySpace).rdropWhile pySpace with _ | ⟨a, t⟩
  · rw [hd] at hc; simp at hc
  · have hne : (l.dropWhile pySpace).rdropWhile pySpace ≠ [] := by simp [hd]
    have := List.rdropWhile_last_not pySpace (l.dropWhile pySpace) hne
    rw [List.getLast?_eq_getLast _ hne] at hc
    simp only [Option.mem_def, Option.some.injEq] at hc
    rwa [hc] at this

lemma lastSpace_some {s : List Char} {hi j : Nat} (h : lastSpace s hi = some j) :
    j < hi ∧ j < s.length ∧ s.getD j ' ' = ' ' := by
  unfold lastSpace at h
  have hmem := List.mem_of_find?_eq_some h
  have hp := List.find?_some h
  simp only [List.mem_reverse, List.mem_range, lt_min_iff] at hmem
  exact ⟨hmem.1, hmem.2, by simpa using hp⟩

lemma lastSpace_none {s : List Char} {hi : Nat} (h : lastSpace s hi = none) :
    ∀ j, j < hi → j < s.length → s.getD j ' ' ≠ ' ' := by
  intro j hj hjs
  have := List.find?_eq_none.mp h j (by simp [List.mem_range, lt_min_iff, hj, hjs])
  simpa using this

lemma pyTruncate_contig (s : List Char) (m : Nat) : pyTruncate s m <:+: s := by
  unfold pyTruncate
  by_cases hlen : s.length ≤ m
  · simp [hlen]
  · rw [if_neg hlen]
    by_cases hj : 0 < (lastSpace s m).getD 0
    · rw [if_pos hj]
      exact List.IsPrefix.isInfix ( List.take_prefix _ s)
    · rw [if_neg hj]
      exact List.IsPrefix.isInfix ( List.take_prefix m s)

lemma length_pyTruncate (s : List Char) (m : Nat) :
    (pyTruncate s m).length ≤ m := by
  unfold pyTruncate
  by_cases hlen : s.length ≤ m
  · simp [hlen]
  · rw [if_neg hlen]
    by_cases hj : 0 < (lastSpace s m).getD 0
    · rw [if_pos hj, List.length_take]
      rcases ho : lastSpace s m with _ | j
      · rw [ho] at hj; simp at hj
      · have := (lastSpace_some ho).1
        simp only [Option.getD_some]
        omega
    · rw [if_neg hj, List.length_take]
      omega

lemma head?_take {c : Char} {l : List Char} {n : Nat}
    (h : c ∈ (l.take n).head?) : c ∈ l.head? := by
  cases n with
  | zero => simp at h
  | succ k => cases l with
    | nil => simp at h
    | cons a t => simpa using h

lemma head_pyTruncate {c : Char} {s : List Char} {m : Nat}
    (h : c ∈ (pyTruncate s m).head?) : c ∈ s.head? := by
  unfold pyTruncate at h
  by_cases hlen : s.length ≤ m
  · simpa [hlen] using h
  · rw [if_neg hlen] at h
    by_cases hj : 0 < (lastSpace s m).getD 0
    · rw [if_pos hj] at h; exact head?_take h
    · rw [if_neg hj] at h; exact head?_take h

lemma getLast?_take {l : List Char} {k : Nat} (hk : 0 < k) (hkl : k ≤ l.length) :
    (l.take k).getLast? = some (l.getD (k - 1) ' ') := by
  have hlen : (l.take k).length = k := by
    rw [List.length_take]; omega
  rw [List.getLast?_eq_getElem?, hlen]
  have hidx : k - 1 < k := by omega
  rw [List.getElem?_take, if_pos hidx, getD_eq_get l (k-1) ' ' (by omega),
    List.get_eq_getElem, List.getElem?_eq_getElem (by omega)]

lemma getD_mem {l : List Char} {i : Nat} (h : i < l.length) (d : Char) :
    l.getD i d ∈ l := by
  rw [getD_eq_get l i d h]
  exact l.get_mem i h

lemma head?_eq_getD {l : List Char} (h : l ≠ []) :
    l.head? = some (l.getD 0 ' ') := by
  cases l with
  | nil => exact absurd rfl h
  | cons a t => rfl

lemma getLast?_eq_getD {l : List Char} (h : l ≠ []) :
    l.getLast? = some (l.getD (l.length - 1) ' ') := by
  have hlen : 0 < l.length := List.length_pos.mpr h
  rw [List.getLast?_eq_getElem?, getD_eq_get l (l.length - 1) ' ' (by omega),
    List.get_eq_getElem, List.getElem?_eq_getElem (by omega)]

lemma last_pyTruncate {s : List Char} {m : Nat}
    (hso : ∀ c ∈ s, pySpace c = true → c = ' ')
    (hch : List.Chain' noTwoSpaces s)
    (hh : ∀ c ∈ s.head?, ¬(pySpace c = true))
    (hl : ∀ c ∈ s.getLast?, ¬(pySpace c = true)) :
    ∀ c ∈ (pyTruncate s m).getLast?, ¬(pySpace c = true) := by
  intro c hc
  unfold pyTruncate at hc
  by_cases hlen : s.length ≤ m
  · rw [if_pos hlen] at hc; exact hl c hc
  · rw [if_neg hlen] at hc
    by_cases hj : 0 < (lastSpace s m).getD 0
    · rw [if_pos hj] at hc
      rcases ho : lastSpace s m with _ | j
      · rw [ho] at hj; simp at hj
      · rw [ho] at hc hj
        simp only [Option.getD_some] at hc hj
        obtain ⟨hjm, hjs, hsp⟩ := lastSpace_some ho
        rw [getLast?_take hj (le_of_lt hjs)] at hc
        simp only [Option.mem_def, Option.some.injEq] at hc
        have hchain := List.chain'_iff_get.mp hch (j - 1) (by omega)
        have hcast : s.get ⟨j - 1 + 1, by omega⟩ = s.get ⟨j, hjs⟩ := by
          congr 1
          simp only [Fin.mk.injEq]
          omega
        rw [hcast] at hchain
        have hspj : pySpace (s.get ⟨j, hjs⟩) = true := by
          rw [← getD_eq_get s j ' ' hjs, hsp]; decide
        intro hcsp
        apply hchain
        refine ⟨?_, hspj⟩
        rw [← getD_eq_get s (j-1) ' ' (by omega), hc]
        exact hcsp
    · rw [if_neg hj] at hc
      rcases Nat.eq_zero_or_pos m with hm0 | hmpos
      · rw [hm0] at hc; simp at hc
      · rw [getLast?_take hmpos (by omega)] at hc
        simp only [Option.mem_def, Option.some.injEq] at hc
        rcases ho : lastSpace s m with _ | j
        · have hnsp := lastSpace_none ho (m - 1) (by omega) (by omega)
          intro hcsp
          have hmem : s.getD (m - 1) ' ' ∈ s := getD_mem (by omega) ' '
          have := hso _ hmem (by rw [hc]; exact hcsp)
          exact hnsp this
        · rw [ho] at hj
          simp only [Option.getD_some] at hj
          have hj0 : j = 0 := by omega
          obtain ⟨_, hjs, hsp⟩ := lastSpace_some ho
          rw [hj0] at hjs hsp
          have hne : s ≠ [] := by
            intro hcon; rw [hcon] at hjs; simp at hjs
          have hhd := hh _ (by rw [head?_eq_getD hne]; rfl)
          rw [hsp] at hhd
          exact absurd (by decide) hhd

/-! ### Invariants of the full sanitizer -/

lemma sanitizeList_mem {c : Char} {l : List Char} {m : Nat}
    (h : c ∈ sanitizeList l m) : c = ' ' ∨ c ∈ invalidSub l := by
  unfold sanitizeList at h
  by_cases hl : l = []
  · rw [if_pos hl] at h; simp at h
  · rw [if_neg hl] at h
    have h1 : c ∈ pyStrip (collapseSpaces (invalidSub l)) :=
      (pyTruncate_contig _ m).subset h
    have h2 : c ∈ collapseSpaces (invalidSub l) :=
      (pyStrip_contig _).subset h1
    exact mem_collapseAux false _ h2

lemma sanitizeList_not_invalid {c : Char} {l : List Char} {m : Nat}
    (h : c ∈ sanitizeList l m) : invalidChar c = false := by
  rcases sanitizeList_mem h with h' | h'
  · rw [h']; decide
  · exact invalidSub_not_invalid h'

lemma sanitizeList_spacesOk {c : Char} {l : List Char} {m : Nat}
    (h : c ∈ sanitizeList l m) (hsp : pySpace c = true) : c = ' ' := by
  unfold sanitizeList at h
  by_cases hl : l = []
  · rw [if_pos hl] at h; simp at h
  · rw [if_neg hl] at h
    have h2 : c ∈ collapseSpaces (invalidSub l) :=
      (pyStrip_contig _).subset ((pyTruncate_contig _ m).subset h)
    exact spacesOk_collapseAux false _ h2 hsp

lemma chain'_of_contig {R : Char → Char → Prop} {l₁ l : List Char}
    (hc : List.Chain' R l) (h : l₁ <:+: l) : List.Chain' R l₁ := by
  obtain ⟨s, t, rfl⟩ := h
  rw [List.chain'_append, List.chain'_append] at hc
  exact hc.1.2.1

lemma sanitizeList_chain' (l : List Char) (m : Nat) :
    List.Chain' noTwoSpaces (sanitizeList l m) := by
  unfold sanitizeList
  by_cases hl : l = []
  · rw [if_pos hl]; simp
  · rw [if_neg hl]
    have hc := chain'_collapseAux false (invalidSub l)
    have hinf : pyTruncate (pyStrip (collapseSpaces (invalidSub l))) m <:+:
        collapseSpaces (invalidSub l) :=
      (pyTruncate_contig _ m).trans (pyStrip_contig _)
    exact chain'_of_contig hc hinf

lemma sanitizeList_head {c : Char} {l : List Char} {m : Nat}
    (h : c ∈ (sanitizeList l m).head?) : ¬(pySpace c = true) := by
  unfold sanitizeList at h
  by_cases hl : l = []
  · rw [if_pos hl] at h; simp at h
  · rw [if_neg hl] at h
    exact head_pyStrip _ c (head_pyTruncate h)

lemma sanitizeList_last {c : Char} {l : List Char} {m : Nat}
    (h : c ∈ (sanitizeList l m).getLast?) : ¬(pySpace c = true) := by
  unfold sanitizeList at h
  by_cases hl : l = []
  · rw [if_pos hl] at h; simp at h
  · rw [if_neg hl] at h
    refine last_pyTruncate ?_ ?_ (head_pyStrip _) (last_pyStrip _) c h
    · intro a ha hasp
      have h2 : a ∈ collapseSpaces (invalidSub l) := (pyStrip_contig _).subset ha
      exact spacesOk_collapseAux false _ h2 hasp
    · exact chain'_of_contig (chain'_collapseAux false (invalidSub l)) (pyStrip_contig _)

lemma sanitizeList_length (l : List Char) (m : Nat) :
    (sanitizeList l m).length ≤ m := by
  unfold sanitizeList
  by_cases hl : l = []
  · rw [if_pos hl]; simp
  · rw [if_neg hl]; exact length_pyTruncate _ m

lemma sanitizeList_reMatch_false {l : List Char} {m : Nat}
    (hdot : (sanitizeList l m).getLast? ≠ some '.') :
    ∀ i, i < (sanitizeList l m).length → reMatchAt (sanitizeList l m) i = false := by
  intro i hi
  set t := sanitizeList l m with ht
  have hne : t ≠ [] := by
    intro hcon; rw [hcon] at hi; simp at hi
  have hmem : t.getD i ' ' ∈ t := getD_mem hi ' '
  have hinv : invalidChar (t.getD i ' ') = false := sanitizeList_not_invalid hmem
  by_contra hcon
  have htrue : reMatchAt t i = true := by
    revert hcon
    cases reMatchAt t i <;> simp
  simp only [reMatchAt, dollar, Bool.or_eq_true, Bool.and_eq_true, beq_iff_eq] at htrue
  rcases htrue with ((hbad | ⟨hdot', hdol⟩) | ⟨hi0, hsp⟩) | ⟨hsp, hdol⟩
  · rw [hbad] at hinv; cases hinv
  · rcases hdol with hend | ⟨hend, hnl⟩
    · apply hdot
      rw [getLast?_eq_getD hne]
      have : t.length - 1 = i := by omega
      rw [this, hdot']
    · have hmem2 : t.getD (i+1) ' ' ∈ t := getD_mem (by omega) ' '
      have := sanitizeList_not_invalid hmem2
      rw [hnl] at this
      cases this
  · subst hi0
    have hhd : t.getD 0 ' ' ∈ t.head? := by
      rw [head?_eq_getD hne]
      exact rfl
    exact sanitizeList_head hhd hsp
  · rcases hdol with hend | ⟨hend, hnl⟩
    · have hlast : t.getD i ' ' ∈ t.getLast? := by
        rw [getLast?_eq_getD hne]
        have : t.length - 1 = i := by omega
        rw [this]; exact rfl
      exact sanitizeList_last hlast hsp
    · have hmem2 : t.getD (i+1) ' ' ∈ t := getD_mem (by omega) ' '
      have := sanitizeList_not_invalid hmem2
      rw [hnl] at this
      cases this

/-- Applying the sanitizer to its own output changes nothing, provided
the first output does not end in a period (the one character the
pattern `\.$` can leave behind and remove on a second pass). -/
lemma sanitizeList_fixed {l : List Char} {m : Nat}
    (hdot : (sanitizeList l m).getLast? ≠ some '.') :
    sanitizeList (sanitizeList l m) m = sanitizeList l m := by
  set t := sanitizeList l m with ht
  by_cases htn : t = []
  · rw [htn]; simp [sanitizeList]
  · have hsub : invalidSub t = t :=
      invalidSub_eq_self (fun i hi => sanitizeList_reMatch_false hdot i hi)
    have hso : ∀ c ∈ t, pySpace c = true → c = ' ' :=
      fun c hc hsp => sanitizeList_spacesOk hc hsp
    have hch : List.Chain' noTwoSpaces t := by rw [ht]; exact sanitizeList_chain' l m
    have hcol : collapseSpaces t = t := by
      unfold collapseSpaces
      exact (collapseAux_eq_self t hso hch).1
    have hdw : t.dropWhile pySpace = t := by
      rw [List.dropWhile_eq_self_iff]
      intro hl0 hcon
      have hhd : t.get ⟨0, hl0⟩ ∈ t.head? := by
        rw [head?_eq_getD htn, getD_eq_get t 0 ' ' hl0]; exact rfl
      exact sanitizeList_head hhd hcon
    have hrdw : t.rdropWhile pySpace = t := by
      rw [List.rdropWhile_eq_self_iff]
      intro hl0 hcon
      have hlst : t.getLast hl0 ∈ t.getLast? := by
        rw [List.getLast?_eq_getLast t hl0]; exact rfl
      exact sanitizeList_last hlst hcon
    have hstrip : pyStrip t = t := by
      unfold pyStrip
      rw [hdw, hrdw]
    have htr : pyTruncate t m = t := by
      unfold pyTruncate
      rw [if_pos (sanitizeList_length l m)]
    show sanitizeList t m = t
    unfold sanitizeList
    rw [if_neg htn, hsub, hcol, hstrip, htr]

/-! ## Claim C6 and C7 theorems (sanitizer) -/

/-- C6 (counterexample): sanitization is not idempotent as claimed.  For
the input `"a.."` the first pass removes only the final dot (the `\.$`
alternative matches once), leaving `"a."`, and a second pass removes the
now-final dot. -/
theorem sanitize_filename_not_idempotent :
    sanitize_filename (sanitize_filename "a.." 200) 200 ≠ sanitize_filename "a.." 200 := by
  decide

/-- C6 (amended): sanitization is idempotent on every input whose
sanitized form does not end with a period: for such strings,
`sanitize(sanitize(s)) == sanitize(s)` for every maximum length. -/
theorem sanitize_filename_idempotent_of_no_trailing_dot (s : String) (m : Nat)
    (h : (sanitize_filename s m).data.getLast? ≠ some '.') :
    sanitize_filename (sanitize_filename s m) m = sanitize_filename s m :=
  congrArg String.mk (sanitizeList_fixed h)

/-- Witness for the amended C6 at the concrete input `"abc"`. -/
theorem sanitize_filename_idempotent_witness :
    (sanitize_filename "abc" 5).data.getLast? ≠ some '.' ∧
      sanitize_filename (sanitize_filename "abc" 5) 5 = sanitize_filename "abc" 5 :=
  ⟨by decide, sanitize_filename_idempotent_of_no_trailing_dot "abc" 5 (by decide)⟩

/-- C7 (counterexample): the output may contain control characters; the
sanitizer only removes the control characters `\n`, `\r`, `\t`, so the
control character `U+0001` survives. -/
theorem sanitize_filename_keeps_control_char :
    '\x01' ∈ (sanitize_filename "a\x01b" 200).data ∧ '\x01'.toNat < 32 := by
  decide

/-- C7 (amended): for every input and maximum length, the output
contains no character of the removed class `<>:"/\|?*` `\n` `\r` `\t`,
neither starts nor ends with (Python) whitespace, and has length at most
the configured maximum. -/
theorem sanitize_filename_output_clean (s : String) (m : Nat) :
    (sanitize_filename s m).data.all (fun c => !invalidChar c) = true ∧
    (sanitize_filename s m).data.head?.all (fun c => !pySpace c) = true ∧
    (sanitize_filename s m).data.getLast?.all (fun c => !pySpace c) = true ∧
    (sanitize_filename s m).length ≤ m := by
  refine ⟨?_, ?_, ?_, ?_⟩
  · rw [List.all_eq_true]
    intro c hc
    have hf : invalidChar c = false := sanitizeList_not_invalid hc
    simp [hf]
  · rcases hh : (sanitize_filename s m).data.head? with _ | c
    · rfl
    · have hmem : c ∈ (sanitizeList s.data m).head? := Option.mem_def.mpr hh
      have hns := sanitizeList_head hmem
      have hf : pySpace c = false := by revert hns; cases pySpace c <;> simp
      simp [hf]
  · rcases hh : (sanitize_filename s m).data.getLast? with _ | c
    · rfl
    · have hmem : c ∈ (sanitizeList s.data m).getLast? := Option.mem_def.mpr hh
      have hns := sanitizeList_last hmem
      have hf : pySpace c = false := by revert hns; cases pySpace c <;> simp
      simp [hf]
  · exact sanitizeList_length s.data m

/-! ## JSON values and Python exceptions

The configuration (src/config_loader.py) and the catalog API payloads
(src/audible_client.py) are JSON data; Python exceptions surface in the
embedding as an explicit error type. -/

/-- A parsed JSON value, as produced by Python's `json.load`.  JSON
numbers are modelled as integers (no claim depends on fractional
values). -/
inductive JVal where
  | null
  | bool (b : Bool)
  | num (n : Int)
  | str (s : String)
  | arr (xs : List JVal)
  | obj (fields : List (String × JVal))

/-- The Python exception classes the embedded code can raise or
catch. -/
inductive Exn where
  | keyError
  | typeError
  | attributeError
  | osError
  | ioError
  | other (code : Nat)
deriving DecidableEq

/-- Python truthiness of a JSON value: `None`, `False`, `0`, `""`, `[]`
and `{}` are falsy. -/
def pyTruthy : JVal → Bool
  | .null => false
  | .bool b => b
  | .num n => !(n == 0)
  | .str s => !s.data.isEmpty
  | .arr xs => !xs.isEmpty
  | .obj fs => !fs.isEmpty

/-- Whether a JSON value is a Python `dict`. -/
def JVal.isObj : JVal → Bool
  | .obj _ => true
  | _ => false

/-- Python subscript `value[key]` with a string key: a `dict` either
yields the entry or raises `KeyError`; every other value (`list`, `str`,
numbers, `None`, booleans) raises `TypeError`. -/
def jSubscript (v : JVal) (key : String) : Except Exn JVal :=
  match v with
  | .obj fields =>
    match fields.lookup key with
    | some x => .ok x
    | none => .error .keyError
  | _ => .error .typeError

/-! ## src/config_loader.py -/

/-- Worker for Python `str.split('.')`: split on every dot, keeping
empty segments. -/
def splitDotAux : List Char → List Char → List String
  | [], acc => [String.mk acc.reverse]
  | c :: rest, acc =>
    if c = '.' then String.mk acc.reverse :: splitDotAux rest []
    else splitDotAux rest (c :: acc)

/-- Python `key_path.split('.')` (src/config_loader.py line 52):
`"a.b" ↦ ["a","b"]`, `"" ↦ [""]`, `"a..b" ↦ ["a","","b"]`. -/
def pySplitDot (s : String) : List String :=
  splitDotAux s.data []

example : pySplitDot "a.b" = ["a", "b"] := rfl
example : pySplitDot "" = [""] := rfl
example : pySplitDot "a..b" = ["a", "", "b"] := rfl

/-- The loop `for key in keys: value = value[key]` of
`get_config_value` (src/config_loader.py lines 52-56). -/
def walkKeys (v : JVal) : List String → Except Exn JVal
  | [] => .ok v
  | k :: ks =>
    match jSubscript v k with
    | .ok v' => walkKeys v' ks
    | .error e => .error e

/-- `config_loader.get_config_value(config, key_path, default)`
(src/config_loader.py lines 33-62): split the key path on dots, walk the
nested dictionaries, return the default only when a `KeyError` was
raised; any other exception propagates. -/
def get_config_value (config : JVal) (key_path : String)
    (dflt : JVal := .null) : Except Exn JVal :=
  match walkKeys config (pySplitDot key_path) with
  | .ok v => .ok v
  | .error .keyError => .ok dflt
  | .error e => .error e

example :
    get_config_value (.obj [("a", .obj [("b", .num 3)])]) "a.b" (.num 0) =
      .ok (.num 3) := rfl
example :
    get_config_value (.obj [("a", .obj [])]) "a.b" (.num 0) = .ok (.num 0) := rfl
example :
    get_config_value (.obj [("a", .str "hello")]) "a.b" (.num 0) =
      .error .typeError := rfl

lemma walkKeys_append (v : JVal) (l₁ l₂ : List String) :
    walkKeys v (l₁ ++ l₂) =
      match walkKeys v l₁ with
      | .ok w => walkKeys w l₂
      | .error e => .error e := by
  induction l₁ generalizing v with
  | nil => simp [walkKeys]
  | cons k ks ih =>
    rw [List.cons_append]
    cases h : jSubscript v k with
    | error e =>
      have h1 : walkKeys v (k :: (ks ++ l₂)) = .error e := by
        simp only [walkKeys, h]
      have h2 : walkKeys v (k :: ks) = .error e := by
        simp only [walkKeys, h]
      rw [h1, h2]
    | ok w =>
      have h1 : walkKeys v (k :: (ks ++ l₂)) = walkKeys w (ks ++ l₂) := by
        simp only [walkKeys, h]
      have h2 : walkKeys v (k :: ks) = walkKeys w ks := by
        simp only [walkKeys, h]
      rw [h1, h2]
      exact ih w

/-- C9: `get_config_value` returns the supplied default only for a
missing dictionary key; when the walk reaches a value that is present
but is not a dictionary while keys remain, the `TypeError` raised by the
subscript is not caught and propagates. -/
theorem get_config_value_nondict_raises
    (config : JVal) (key_path : String) (dflt : JVal)
    (ks₁ ks₂ : List String) (k : String) (v : JVal)
    (hsplit : pySplitDot key_path = ks₁ ++ k :: ks₂)
    (hwalk : walkKeys config ks₁ = .ok v) :
    (v.isObj = false →
      get_config_value config key_path dflt = .error Exn.typeError) ∧
    (∀ fields, v = .obj fields → fields.lookup k = none →
      get_config_value config key_path dflt = .ok dflt) := by
  constructor
  · intro hnd
    have hsub : jSubscript v k = .error .typeError := by
      cases v <;> simp_all [jSubscript, JVal.isObj]
    have hfull : walkKeys config (pySplitDot key_path) = .error .typeError := by
      rw [hsplit, walkKeys_append, hwalk]
      show walkKeys v (k :: ks₂) = _
      unfold walkKeys
      rw [hsub]
    unfold get_config_value
    rw [hfull]
  · intro fields hv hlook
    have hsub : jSubscript v k = .error .keyError := by
      rw [hv]
      simp [jSubscript, hlook]
    have hfull : walkKeys config (pySplitDot key_path) = .error .keyError := by
      rw [hsplit, walkKeys_append, hwalk]
      show walkKeys v (k :: ks₂) = _
      unfold walkKeys
      rw [hsub]
    unfold get_config_value
    rw [hfull]

/-- Witness for C9: traversing `{"a": "hello"}` with `"a.b"` raises,
while traversing `{"a": {}}` with `"a.b"` yields the default. -/
theorem get_config_value_nondict_raises_witness :
    get_config_value (.obj [("a", .str "hello")]) "a.b" (.num 0) =
        .error Exn.typeError ∧
      get_config_value (.obj [("a", .obj [])]) "a.b" (.num 0) = .ok (.num 0) := by
  constructor
  · exact (get_config_value_nondict_raises (.obj [("a", .str "hello")]) "a.b"
      (.num 0) ["a"] [] "b" (.str "hello") (by decide) rfl).1 rfl
  · exact (get_config_value_nondict_raises (.obj [("a", .obj [])]) "a.b"
      (.num 0) ["a"] [] "b" (.obj []) (by decide) rfl).2 [] rfl rfl

/-! ## Filename regexes (src/main.py lines 27-31)

`\w` and `\b` are modelled over the ASCII word characters
`[A-Za-z0-9_]`; the file names these regexes are applied to are plain
ASCII in every claim. -/

def isWordChar (c : Char) : Bool :=
  ('a' ≤ c && c ≤ 'z') || ('A' ≤ c && c ≤ 'Z') || ('0' ≤ c && c ≤ '9') ||
  c == '_'

/-- Python's `\b`: a word boundary sits at position `p` iff exactly one
of the characters around `p` is a word character. -/
def boundaryAt (s : List Char) (p : Nat) : Bool :=
  (decide (0 < p) && isWordChar (s.getD (p - 1) ' ')) !=
    (decide (p < s.length) && isWordChar (s.getD p ' '))

/-- `[0-9A-Z]` under `re.IGNORECASE`. -/
def asinCharOk (c : Char) : Bool :=
  ('0' ≤ c && c ≤ '9') || ('A' ≤ c && c ≤ 'Z') || ('a' ≤ c && c ≤ 'z')

/-- A match of `ASIN_IN_FILENAME_RE = \b(B0[0-9A-Z]{8})\b` (IGNORECASE)
anchored at position `i`. -/
def asinMatchAt (s : List Char) (i : Nat) : Bool :=
  boundaryAt s i &&
  (s.getD i ' ' == 'B' || s.getD i ' ' == 'b') &&
  s.getD (i + 1) ' ' == '0' &&
  (List.range 8).all (fun k => asinCharOk (s.getD (i + 2 + k) ' ')) &&
  decide (i + 10 ≤ s.length) &&
  boundaryAt s (i + 10)

/-- `ASIN_IN_FILENAME_RE.search(name)` followed by `.group(1)`
(src/main.py lines 31 and 211-213): the leftmost match of the
identifier shape, returned in its original case. -/
def asinSearch (s : List Char) : Option String :=
  ((List.range s.length).find? (fun i => asinMatchAt s i)).map
    (fun i => String.mk ((s.drop i).take 10))

example : asinSearch "MyBook_B0ABCD1234.m4b".data = none := by decide
example : asinSearch "MyBook-B0ABCD1234.m4b".data = some "B0ABCD1234" := by decide
example : asinSearch "MyBook B0ABCD1234.m4b".data = some "B0ABCD1234" := by decide
example : asinSearch "b0abcd1234".data = some "b0abcd1234" := by decide
example : asinSearch "xB0ABCD1234".data = none := by decide
example : asinSearch "B0ABC".data = none := by decide
example : asinSearch "a B0ABCD12345".data = none := by decide

/-! ## `clean_filename_for_search` (src/main.py lines 101-109) -/

/-- `pathlib.PurePath.stem` for the slash-free names this program feeds
it: drop the suffix, which exists iff the last dot is neither the first
nor the last character. -/
def pyStem (s : String) : String :=
  match (List.range s.data.length).reverse.find?
      (fun i => s.data.getD i ' ' == '.') with
  | some i =>
    if 0 < i && i + 1 < s.data.length then ⟨s.data.take i⟩ else s
  | none => s

example : pyStem "a b.m4b" = "a b" := by decide
example : pyStem "a.b.c" = "a.b" := by decide
example : pyStem "a." = "a." := by decide
example : pyStem ".hidden" = ".hidden" := by decide
example : pyStem "noext" = "noext" := by decide

/-- ASCII lower-casing, as applied by `re.IGNORECASE` matching. -/
def lcChar (c : Char) : Char :=
  if 'A' ≤ c && c ≤ 'Z' then Char.ofNat (c.toNat + 32) else c

/-- Case-insensitive match of the literal `kw` at position `i`. -/
def ciPrefixAt (s : List Char) (i : Nat) (kw : List Char) : Bool :=
  decide (i + kw.length ≤ s.length) &&
  (List.range kw.length).all
    (fun k => lcChar (s.getD (i + k) ' ') == kw.getD k ' ')

/-- `[IVXLCDM]` under IGNORECASE. -/
def romanChar (c : Char) : Bool :=
  lcChar c == 'i' || lcChar c == 'v' || lcChar c == 'x' || lcChar c == 'l' ||
  lcChar c == 'c' || lcChar c == 'd' || lcChar c == 'm'

/-- `[ \-]`. -/
def sepChar (c : Char) : Bool := c == ' ' || c == '-'

def isDigitChar (c : Char) : Bool := '0' ≤ c && c ≤ '9'

/-- Length of the maximal run of characters satisfying `p` starting at
position `i`. -/
def runLen (p : Char → Bool) (s : List Char) (i : Nat) : Nat :=
  ((s.drop i).takeWhile p).length

/-- The keyword alternatives of `FILENAME_KEEP_WORDS_RE`, in pattern
order.  At any position at most one of them can match textually (their
second letters are pairwise distinct for a shared first letter), so the
alternation needs no backtracking. -/
def keepKeywords : List (List Char) :=
  ["book".data, "part".data, "bk".data, "pt".data, "act".data]

/-- A match of `FILENAME_KEEP_WORDS_RE =
`\b(book|part|bk|pt|act)\b[ \-]*(\d+|[IVXLCDM]+)\b`` (IGNORECASE)
anchored at position `i`: returns the end position and the two capture
groups.  The separator class overlaps neither digits nor roman letters
and a shortened greedy run still ends in a word character, so the greedy
quantifiers need no backtracking either. -/
def matchKeepAt (s : List Char) (i : Nat) :
    Option (Nat × List Char × List Char) :=
  if !(boundaryAt s i) then none
  else
    match keepKeywords.find? (fun kw => ciPrefixAt s i kw) with
    | none => none
    | some kw =>
      let j := i + kw.length
      if !(boundaryAt s j) then none
      else
        let j2 := j + runLen sepChar s j
        let dlen := runLen isDigitChar s j2
        if 0 < dlen && boundaryAt s (j2 + dlen) then
          some (j2 + dlen, (s.drop i).take kw.length, (s.drop j2).take dlen)
        else
          let rlen := runLen romanChar s j2
          if 0 < rlen && boundaryAt s (j2 + rlen) then
            some (j2 + rlen, (s.drop i).take kw.length, (s.drop j2).take rlen)
          else none

/-- One left-to-right scan of the keep-words pattern, collecting the
non-overlapping matches (as `findall` does) and the characters outside
the matched spans (as `sub(.., "")` keeps them).  `fuel` bounds the
number of scan steps; every step advances the position. -/
def keepAux (s : List Char) : Nat → Nat → List (List Char × List Char) × List Char
  | 0, _ => ([], [])
  | fuel + 1, i =>
    if s.length ≤ i then ([], [])
    else
      match matchKeepAt s i with
      | some (e, g1, g2) =>
        let rest := keepAux s fuel e
        ((g1, g2) :: rest.1, rest.2)
      | none =>
        let rest := keepAux s fuel (i + 1)
        (rest.1, s.getD i ' ' :: rest.2)

/-- `FILENAME_KEEP_WORDS_RE.findall(s)`. -/
def keepFindall (s : List Char) : List (List Char × List Char) :=
  (keepAux s (s.length + 1) 0).1

/-- `FILENAME_KEEP_WORDS_RE.sub("", s)`. -/
def keepSub (s : List Char) : List Char :=
  (keepAux s (s.length + 1) 0).2

/-- `[_\-.]`. -/
def cleanDelim (c : Char) : Bool := c == '_' || c == '-' || c == '.'

/-- Worker for `FILENAME_CLEAN_RE.sub(" ", s)`, same automaton shape as
`collapseAux`. -/
def delimAux : Bool → List Char → List Char
  | _, [] => []
  | inRun, c :: rest =>
    if cleanDelim c then
      if inRun then delimAux true rest
      else ' ' :: delimAux true rest
    else c :: delimAux false rest

/-- `FILENAME_CLEAN_RE.sub(" ", s)` (src/main.py line 30): collapse
every run of `_`, `-`, `.` into one space. -/
def delimSub (s : List Char) : List Char :=
  delimAux false s

/-- `" ".join(strings)`. -/
def joinSpace : List String → String
  | [] => ""
  | [x] => x
  | x :: xs => x ++ " " ++ joinSpace xs

/-- `main.clean_filename_for_search(filename)` (src/main.py lines
101-109). -/
def clean_filename_for_search (filename : String) : String :=
  let base := (pyStem filename).data
  let series_parts :=
    joinSpace ((keepFindall base).map
      (fun m => String.mk m.1 ++ " " ++ String.mk m.2))
  let cleaned := keepSub (delimSub base)
  ⟨collapseSpaces (pyStrip (cleaned ++ (' ' :: series_parts.data)))⟩

example : clean_filename_for_search "MyBook_B0ABCD1234.m4b" =
    "MyBook B0ABCD1234" := by decide
example : clean_filename_for_search "Author - Series Book 3 - Title.m4b" =
    "Author Series Title Book 3" := by decide
example : clean_filename_for_search "part-IV of things.mp3" =
    "of things part IV" := by decide
example : clean_filename_for_search "bk 12 something" =
    "something bk 12" := by decide
example : clean_filename_for_search "a.b.c" = "a b" := by decide
example : clean_filename_for_search "Book3.m4b" = "Book3" := by decide
example : clean_filename_for_search "The Act 2 act II.m4b" =
    "The Act 2 act II" := by decide
example : clean_filename_for_search "partx" = "partx" := by decide
example : clean_filename_for_search "part -x" = "part x" := by decide
example : clean_filename_for_search "hello" = "hello" := by decide

/-! ## The identity-resolution waterfall (src/main.py lines 193-247)

The external collaborators are oracles: `read_tags` (src/tag_reader.py,
the mutagen calls behind it read the filesystem) and
`client.search_by_keywords` (network).  Both may raise.  Identifier
values inside tag and search payloads are modelled as strings. -/

/-- The dictionary returned by `tag_reader.read_tags` (always carries
the three keys `asin`, `title`, `author`, each possibly `None`). -/
structure Tags where
  asin : Option String
  title : Option String
  author : Option String

/-- One entry of the `products` list a keyword search returns; only its
`asin` field is ever read by `run_scan`. -/
structure SearchItem where
  asin : Option String

/-- Python truthiness of a string. -/
def strTruthy (s : String) : Bool := !s.data.isEmpty

/-- Python truthiness of an optional string (`None` and `""` falsy). -/
def optTruthy : Option String → Bool
  | some s => strTruthy s
  | none => false

/-- Truthiness of `search_by_keywords`'s result (`None` or `[]`
falsy). -/
def resultsTruthy : Option (List SearchItem) → Bool
  | some (_ :: _) => true
  | _ => false

/-- The oracles the waterfall consults. -/
structure ResolveEnv where
  asin_map : List (String × String)
  read_tags : String → Except Exn Tags
  search : String → Nat → Except Exn (Option (List SearchItem))

/-- What `run_scan` knows about one candidate file. -/
structure Candidate where
  path : String
  name : String
  parentName : String
  parentIsInput : Bool

/-- Result of the resolution waterfall, instrumented with how many tag
reads happened and which search terms were issued (in order). -/
structure Resolution where
  best_asin : Option String
  tagReads : Nat
  searchCalls : List String
deriving DecidableEq

/-- Stages 1-4 of `run_scan` (src/main.py lines 195-240): manual ASIN
map, ID3 tag / filename pattern, ID3 title+author keyword search,
cleaned-filename keyword search.  Each stage runs only while
`best_asin` is still falsy. -/
def resolve_asin (env : ResolveEnv) (cand : Candidate) :
    Except Exn Resolution := do
  -- 1. ASIN Map: `if item_path.name in asin_map`
  let best1 : Option String := env.asin_map.lookup cand.name
  -- 2. ID3/Filename ASIN: `if not best_asin`
  let st2 ←
    if optTruthy best1 then pure (best1, (none : Option Tags), 0)
    else do
      let tags ← env.read_tags cand.path
      let best :=
        if optTruthy tags.asin then tags.asin
        else
          match asinSearch cand.name.data with
          | some a => some a
          | none => best1
      pure (best, some tags, 1)
  let (best2, tags2, reads2) := st2
  -- 3. ID3 Title/Author Search: `if not best_asin`
  let st3 ←
    if optTruthy best2 then pure (best2, reads2, ([] : List String))
    else do
      -- `if not tags: tags = read_tags(...)` (the dict read in stage 2
      -- always has three keys, hence is truthy once present)
      let (tags3, reads3) ←
        match tags2 with
        | some t => pure (t, reads2)
        | none => do
          let t ← env.read_tags cand.path
          pure (t, reads2 + 1)
      if optTruthy tags3.title && optTruthy tags3.author then do
        let term := tags3.author.getD "" ++ " " ++ tags3.title.getD ""
        let results ← env.search term 1
        let best :=
          match results with
          | some (r :: _) => r.asin
          | _ => best2
        pure (best, reads3, [term])
      else
        pure (best2, reads3, [])
  let (best3, reads3, calls3) := st3
  -- 4. Filename Search: `if not best_asin`
  if optTruthy best3 then
    pure ⟨best3, reads3, calls3⟩
  else do
    let combined :=
      if cand.parentIsInput then cand.name
      else cand.parentName ++ " " ++ cand.name
    let term := clean_filename_for_search combined
    let results ← env.search term 1
    let best :=
      match results with
      | some (r :: _) => r.asin
      | _ => best3
    pure ⟨best, reads3, calls3 ++ [term]⟩

/-! ## Claim C1: manual override map -/

/-- C1 (counterexample): a file name that *is* a key of the manual map
does not always resolve to the map value.  The map value `""` is falsy
in Python, so `if not best_asin` lets the waterfall continue and pick
the embedded-tag identifier instead. -/
theorem resolve_asin_manual_map_counterexample :
    resolve_asin
        ⟨[("f.m4b", "")],
          fun _ => .ok ⟨some "B0TAGTAG12", none, none⟩,
          fun _ _ => .ok none⟩
        ⟨"f.m4b", "f.m4b", "inbox", true⟩ =
      .ok ⟨some "B0TAGTAG12", 1, []⟩ ∧ ("B0TAGTAG12" : String) ≠ "" := by
  exact ⟨rfl, by decide⟩

/-- C1 (amended): for every candidate whose file name maps to a
*non-empty* identifier in the manual map, resolution returns exactly
that identifier; no tag is read and no search call is made, whatever
identifiers the file's tags or name embed. -/
theorem resolve_asin_manual_map (env : ResolveEnv) (cand : Candidate)
    (v : String) (hmap : env.asin_map.lookup cand.name = some v)
    (hv : v ≠ "") :
    resolve_asin env cand = .ok ⟨some v, 0, []⟩ := by
  have hv' : strTruthy v = true := by
    cases v with
    | mk data =>
      cases data with
      | nil => exact absurd rfl hv
      | cons a t => rfl
  unfold resolve_asin
  rw [hmap]
  simp [optTruthy, hv']
  rfl

/-- Witness for the amended C1. -/
theorem resolve_asin_manual_map_witness :
    ([("f.m4b", "B0MAPMAP12")].lookup "f.m4b" = some "B0MAPMAP12") ∧
      resolve_asin
          ⟨[("f.m4b", "B0MAPMAP12")],
            fun _ => .ok ⟨some "B0TAGTAG12", none, none⟩,
            fun _ _ => .ok none⟩
          ⟨"f.m4b", "f.m4b", "inbox", true⟩ =
        .ok ⟨some "B0MAPMAP12", 0, []⟩ :=
  ⟨by decide,
    resolve_asin_manual_map
      ⟨[("f.m4b", "B0MAPMAP12")],
        fun _ => .ok ⟨some "B0TAGTAG12", none, none⟩,
        fun _ _ => .ok none⟩
      ⟨"f.m4b", "f.m4b", "inbox", true⟩ "B0MAPMAP12" (by decide) (by decide)⟩

/-! ## Claim C8: filename-embedded identifier scenario -/

/-- C8 (counterexample): for the spec's file `MyBook_B0ABCD1234.m4b`
with no tags and no manual-map entry the resolver does *not* extract
`B0ABCD1234`: `\b` fails between the word characters `_` and `B`, so
the filename stage misses, and the waterfall falls through to the
filename keyword search — one search call is made and resolution comes
back empty (the stub search returns nothing). -/
theorem resolve_asin_underscore_counterexample :
    resolve_asin
        ⟨[], fun _ => .ok ⟨none, none, none⟩, fun _ _ => .ok none⟩
        ⟨"MyBook_B0ABCD1234.m4b", "MyBook_B0ABCD1234.m4b", "inbox", true⟩ =
      .ok ⟨none, 1, ["MyBook B0ABCD1234"]⟩ := by
  rfl

/-- C8 (amended): with a separator that is not a word character (for
example `MyBook-B0ABCD1234.m4b`), a candidate with no embedded tags and
no manual-map entry resolves to `B0ABCD1234` at the filename-identifier
stage, and no search call is made — for every search oracle. -/
theorem resolve_asin_filename_stage
    (search : String → Nat → Except Exn (Option (List SearchItem))) :
    resolve_asin
        ⟨[], fun _ => .ok ⟨none, none, none⟩, search⟩
        ⟨"MyBook-B0ABCD1234.m4b", "MyBook-B0ABCD1234.m4b", "inbox", true⟩ =
      .ok ⟨some "B0ABCD1234", 1, []⟩ := by
  rfl

/-! ## The catalog client (src/audible_client.py)

`_make_api_request` catches every transport error and returns `None`
or a parsed JSON dictionary, so the network is an oracle
`String → Option JObj`.  The same request issued twice in one
`get_metadata_by_asin` call is assumed to answer alike. -/

/-- A JSON object: the dictionaries `_make_api_request` returns. -/
abbrev JObj := List (String × JVal)

/-- `sep.join(strings)`. -/
def joinWith (sep : String) : List String → String
  | [] => ""
  | [x] => x
  | x :: xs => x ++ sep ++ joinWith sep xs

/-- A metadata dictionary value (`_parse_product_json` stores strings,
lists of names, `None`, and raw JSON payloads). -/
inductive MVal where
  | str (s : String)
  | strList (l : List String)
  | null
  | json (j : JVal)

/-- The metadata dictionary handed around `main.py`. -/
abbrev Metadata := List (String × MVal)

/-- Python dict assignment `d[k] = v`: replace in place or append. -/
def dictSet (d : Metadata) (k : String) (v : MVal) : Metadata :=
  if (List.lookup k d).isSome then
    d.map (fun p => if p.1 = k then (k, v) else p)
  else d ++ [(k, v)]

/-- Python `str.lower()` (ASCII). -/
def pyLowerStr (s : String) : String := ⟨s.data.map lcChar⟩

/-- Python `str.strip()` on `String`. -/
def pyStripStr (s : String) : String := ⟨pyStrip s.data⟩

/-- `a.replace(pat, r)`: replace all non-overlapping occurrences, left
to right.  `fuel` bounds the scan; the pattern is non-empty at every
call site. -/
def replaceAllAux (pat r : List Char) : Nat → List Char → List Char
  | _, [] => []
  | 0, l => l
  | fuel + 1, c :: rest =>
    if pat.isPrefixOf (c :: rest) then
      r ++ replaceAllAux pat r fuel ((c :: rest).drop pat.length)
    else c :: replaceAllAux pat r fuel rest

def pyReplace (s pat r : String) : String :=
  ⟨replaceAllAux pat.data r.data s.data.length s.data⟩

example : pyReplace "book 2 book" "book" "" = " 2 " := rfl

/-- Leading sign of a Python numeric literal. -/
def parseSign : List Char → Bool × List Char
  | '-' :: r => (true, r)
  | '+' :: r => (false, r)
  | l => (false, l)

/-- `int(float(s))` (src/audible_client.py line 224): parse a decimal
literal with optional sign, fraction and exponent, and truncate toward
zero.  `none` models the `ValueError` of a malformed literal.
(Python's `inf`/`nan` spellings and digit underscores are outside this
model; no catalog sequence value uses them.) -/
def pyFloatTruncInt (s : String) : Option Int :=
  let l := pyStrip s.data
  let (neg, l1) := parseSign l
  let intDigits := l1.takeWhile isDigitChar
  let l2 := l1.drop intDigits.length
  let (fracDigits, l3) :=
    match l2 with
    | '.' :: r => (r.takeWhile isDigitChar, r.drop (r.takeWhile isDigitChar).length)
    | _ => ([], l2)
  if intDigits.isEmpty && fracDigits.isEmpty then none
  else
    let expPart : Option Int :=
      match l3 with
      | [] => some 0
      | e :: r =>
        if e == 'e' || e == 'E' then
          let (eneg, r1) := parseSign r
          let eDigits := r1.takeWhile isDigitChar
          if eDigits.isEmpty || !(r1.drop eDigits.length).isEmpty then none
          else
            let ev : Int := Int.ofNat (digitsToNat eDigits)
            some (if eneg then -ev else ev)
        else none
    match expPart with
    | none => none
    | some e =>
      let mantissa := digitsToNat (intDigits ++ fracDigits)
      let shift : Int := e - Int.ofNat fracDigits.length
      let mag : Nat :=
        if 0 ≤ shift then mantissa * 10 ^ shift.toNat
        else mantissa / 10 ^ (-shift).toNat
      some (if neg then -(Int.ofNat mag) else Int.ofNat mag)
where
  digitsToNat (ds : List Char) : Nat :=
    ds.foldl (fun acc c => acc * 10 + (c.toNat - '0'.toNat)) 0

example : pyFloatTruncInt "3" = some 3 := rfl
example : pyFloatTruncInt "1.5" = some 1 := rfl
example : pyFloatTruncInt "-1.5" = some (-1) := rfl
example : pyFloatTruncInt " 2.25 " = some 2 := rfl
example : pyFloatTruncInt "1e2" = some 100 := rfl
example : pyFloatTruncInt "12.5e-1" = some 1 := rfl
example : pyFloatTruncInt "x" = none := rfl
example : pyFloatTruncInt "1x" = none := rfl
example : pyFloatTruncInt "" = none := rfl

/-- `f"{n:02d}"`. -/
def fmt02d (n : Int) : String :=
  if 0 ≤ n && n < 10 then "0" ++ toString n else toString n

/-- Python `repr()` of a JSON value (strings quoted; escape
refinements inside reprs are not modelled; no claim touches them). -/
def pyReprJ : JVal → String
  | .null => "None"
  | .bool true => "True"
  | .bool false => "False"
  | .num n => toString n
  | .str s => "'" ++ s ++ "'"
  | .arr xs =>
    "[" ++ joinWith ", " (xs.attach.map (fun x => pyReprJ x.1)) ++ "]"
  | .obj fs =>
    "\x7b" ++
      joinWith ", "
        (fs.attach.map (fun p => "'" ++ p.1.1 ++ "': " ++ pyReprJ p.1.2)) ++
      "\x7d"
termination_by v => sizeOf v
decreasing_by
  · have h := List.sizeOf_lt_of_mem x.2
    simp only [JVal.arr.sizeOf_spec]
    omega
  · have h := List.sizeOf_lt_of_mem p.2
    rcases hp : p.1 with ⟨a, b⟩
    rw [hp] at h
    simp only [JVal.obj.sizeOf_spec, Prod.mk.sizeOf_spec] at *
    omega

/-- Python `str()` of a JSON value: the identity on strings, `repr`
otherwise. -/
def pyStrJ : JVal → String
  | .str s => s
  | v => pyReprJ v

/-- `" & ".join` with a guard (`utils.format_contributors`,
src/utils.py lines 39-43). -/
def format_contributors (contributors : List String)
    (separator : String := " & ") : String :=
  if contributors.isEmpty then "" else joinWith separator contributors

/-- A JSON value looked up with `.get(key)`, wrapped into a metadata
value (`None` for a missing key). -/
def mOfJOpt : Option JVal → MVal
  | none => .null
  | some (.str s) => .str s
  | some v => .json v

/-- The list comprehension of `get_contributors`
(src/audible_client.py lines 211-212): names that are truthy strings,
stripped.  (A truthy non-string name would raise at `.strip()`; such
payloads are outside the model.) -/
def getContributors (p : List (String × JVal)) (key : String) : List String :=
  match List.lookup key p with
  | some (.arr xs) =>
    xs.filterMap (fun c =>
      match c with
      | .obj f =>
        match List.lookup "name" f with
        | some (.str s) => if strTruthy s then some (pyStripStr s) else none
        | _ => none
      | _ => none)
  | _ => []

/-- The `series` block of `_parse_product_json` (src/audible_client.py
lines 214-226), producing `(series_name, series_part)`. -/
def parseSeries (p : List (String × JVal)) : MVal × MVal :=
  match List.lookup "series" p with
  | some (.arr (info :: _)) =>
    let seriesName :=
      match info with
      | .obj f => mOfJOpt (List.lookup "title" f)
      | _ => .null
    let seqVal : Option JVal :=
      match info with
      | .obj f => List.lookup "sequence" f
      | _ => none
    let seriesPart :=
      match seqVal with
      | none => .null
      | some sv =>
        if pyTruthy sv then
          let s3 := pyStripStr (pyReplace (pyLowerStr (pyStrJ sv)) "book" "")
          match pyFloatTruncInt s3 with
          | some n => .str (fmt02d n)
          | none => .str s3
        else mOfJOpt (some sv)
    (seriesName, seriesPart)
  | _ => (.null, .null)

/-- `release_date.split("-")[0]`. -/
def yearOfReleaseDate (rd : Option JVal) : MVal :=
  match rd with
  | some (.str s) =>
    if strTruthy s then .str ⟨s.data.takeWhile (fun c => !(c == '-'))⟩
    else .null
  | _ => .null

/-- The cover-size waterfall (src/audible_client.py lines 236-241). -/
def coverUrl (p : List (String × JVal)) : MVal :=
  match List.lookup "product_images" p with
  | some (.obj imgs) =>
    match List.lookup "1000" imgs with
    | some v => mOfJOpt (some v)
    | none =>
      match List.lookup "700" imgs with
      | some v => mOfJOpt (some v)
      | none =>
        match List.lookup "500" imgs with
        | some v => mOfJOpt (some v)
        | none => .null
  | _ => .null

/-- `.get(key, "")` where the value is used as a string. -/
def getStrD (p : List (String × JVal)) (key : String) (d : String) : String :=
  match List.lookup key p with
  | some (.str s) => s
  | _ => d

/-- `AudibleClient._parse_product_json` (src/audible_client.py lines
204-269). -/
def parse_product (web_base : String) (p : List (String × JVal)) : Metadata :=
  let series := parseSeries p
  let authors := getContributors p "authors"
  let narrators := getContributors p "narrators"
  let productUrl :=
    web_base ++ "/pd/" ++ pyStrJ ((List.lookup "asin" p).getD .null)
  let description := pyStripStr (getStrD p "publisher_summary" "")
  let rating :=
    match List.lookup "ratings_summary" p with
    | some (.obj rs) => mOfJOpt (List.lookup "average_rating" rs)
    | _ => .null
  let base : Metadata :=
    [("asin", mOfJOpt (List.lookup "asin" p)),
     ("title", mOfJOpt (List.lookup "title" p)),
     ("subtitle", mOfJOpt (List.lookup "subtitle" p)),
     ("authors", .strList authors),
     ("narrators", .strList narrators),
     ("series", series.1),
     ("series_part", series.2),
     ("release_date", mOfJOpt (List.lookup "release_date" p)),
     ("year", yearOfReleaseDate (List.lookup "release_date" p)),
     ("description", .str description),
     ("rating", rating),
     ("cover_url", coverUrl p),
     ("product_url", .str productUrl),
     ("raw_json", .json (.obj p))]
  let m1 := dictSet base "MP3TAG_TITLE" (mOfJOpt (List.lookup "title" p))
  let m2 := dictSet m1 "MP3TAG_AUTHOR" (.str (format_contributors authors))
  let m3 := dictSet m2 "MP3TAG_NARRATOR" (.str (format_contributors narrators))
  let m4 := dictSet m3 "MP3TAG_SERIES" series.1
  let m5 := dictSet m4 "MP3TAG_SERIES_PART" series.2
  let m6 := dictSet m5 "MP3TAG_YEAR" (yearOfReleaseDate (List.lookup "release_date" p))
  let m7 := dictSet m6 "MP3TAG_DESC" (.str description)
  dictSet m7 "MP3TAG_WWWAUDIOFILE" (.str productUrl)

/-- The network as seen through `_make_api_request`: the parsed JSON
dictionary of a 2xx response, or `None` after any transport/auth/404
failure.  `direct` answers the product-by-identifier URL (keyed by the
ASIN placed in it, and by how many direct requests this fetch has
already issued — the network may answer a retried URL differently);
`searchResp` answers the keyword-search URL (keyed by the keywords and
the `num_results` parameter). -/
structure ClientEnv where
  direct : Nat → String → Option JObj
  searchResp : String → Nat → Option JObj
  web_base : String

/-- Truthiness of a Python dict. -/
def objTruthy (d : JObj) : Bool := !d.isEmpty

/-- `AudibleClient.search_by_keywords` (src/audible_client.py lines
186-202): returns `data["products"]` when the response is a truthy
dict holding that key, else `None`. -/
def search_by_keywords (env : ClientEnv) (keywords : String)
    (num_results : Nat := 5) : Option JVal :=
  match env.searchResp keywords num_results with
  | some d =>
    if objTruthy d then
      match List.lookup "products" d with
      | some v => some v
      | none => none
    else none
  | none => none

/-- `data and "product" in data` followed by `data["product"]`
(src/audible_client.py lines 151-155 and 177-180). -/
def directProduct (resp : Option JObj) : Option JVal :=
  match resp with
  | some d => if objTruthy d then List.lookup "product" d else none
  | none => none

/-- Truthiness of an optional JSON value (`None` falsy). -/
def jOptTruthy : Option JVal → Bool
  | none => false
  | some v => pyTruthy v

/-- Python `x[0]`: first element of a list, first character of a
string; a dict raises `KeyError` for the missing key `0`, everything
else `TypeError`. -/
def jIndex0 : JVal → Except Exn JVal
  | .arr (x :: _) => .ok x
  | .arr [] => .error (.other 0)
  | .str s =>
    match s.data with
    | c :: _ => .ok (.str ⟨[c]⟩)
    | [] => .error (.other 0)
  | .obj _ => .error .keyError
  | _ => .error .typeError

/-- Python `x.get(key)`: only dicts have `.get`. -/
def jGetOpt (v : JVal) (key : String) : Except Exn (Option JVal) :=
  match v with
  | .obj f => .ok (List.lookup key f)
  | _ => .error .attributeError

/-- Python `matched_asin == asin` where `asin` is a string. -/
def jEqStr (v : Option JVal) (s : String) : Bool :=
  match v with
  | some (.str t) => t == s
  | _ => false

/-- `AudibleClient.get_metadata_by_asin` (src/audible_client.py lines
138-183): direct lookup first; on failure a keyword search for the
identifier itself, whose top result must carry exactly the requested
identifier before the direct lookup is retried; any mismatch fails the
whole fetch. -/
def get_metadata_by_asin (env : ClientEnv) (asin : String) :
    Except Exn (Option Metadata) :=
  match directProduct (env.direct 0 asin) with
  | some (.obj f) => .ok (some (parse_product env.web_base f))
  | some _ => .error .attributeError
  | none =>
    match search_by_keywords env asin 1 with
    | none => .ok none
    | some v =>
      if !(pyTruthy v) then .ok none
      else
        match jIndex0 v with
        | .error e => .error e
        | .ok first =>
          match jGetOpt first "asin" with
          | .error e => .error e
          | .ok matched =>
            if !(jOptTruthy matched) then .ok none
            else if jEqStr matched asin then
              match directProduct (env.direct 1 asin) with
              | some (.obj f) => .ok (some (parse_product env.web_base f))
              | some _ => .error .attributeError
              | none => .ok none
            else .ok none

/-! ## Claim C2: identifier verification on the search fallback -/

/-- C2: when the direct metadata lookup fails and the fallback keyword
search's top result carries an identifier different from the one being
verified, the whole fetch returns no metadata — the mismatched
identifier's data is never substituted. -/
theorem get_metadata_mismatched_asin_fails (env : ClientEnv) (asin m : String)
    (first : List (String × JVal)) (rest : List JVal)
    (hdirect : directProduct (env.direct 0 asin) = none)
    (hsearch : search_by_keywords env asin 1 = some (.arr (.obj first :: rest)))
    (hasin : List.lookup "asin" first = some (.str m))
    (hne : m ≠ asin) :
    get_metadata_by_asin env asin = .ok none := by
  have hEq : (m == asin) = false := beq_eq_false_iff_ne.mpr hne
  unfold get_metadata_by_asin
  rw [hdirect, hsearch]
  simp only [jIndex0, jGetOpt]
  rw [hasin]
  by_cases hm : m.data.isEmpty = true
  · simp [jOptTruthy, jEqStr, hEq, pyTruthy, hm]
  · simp [jOptTruthy, jEqStr, hEq, pyTruthy, hm]

/-- Witness for C2: a search stub answering `B0BBBBBBB2` for the query
`B0AAAAAAA1` makes the fetch fail. -/
theorem get_metadata_mismatched_asin_fails_witness :
    get_metadata_by_asin
        ⟨fun n _ =>
            if n == 0 then none
            else some [("product", .obj [("title", .str "Wrong Book")])],
          fun _ _ =>
            some [("products", JVal.arr [.obj [("asin", .str "B0BBBBBBB2")]])],
          "https://www.audible.com"⟩ "B0AAAAAAA1" = .ok none :=
  get_metadata_mismatched_asin_fails _ "B0AAAAAAA1" "B0BBBBBBB2"
    [("asin", .str "B0BBBBBBB2")] [] rfl rfl rfl (by decide)

/-! ## `apply_formatting_rules` (src/main.py lines 111-137)

The function's frame behaviour (claim C10) is about Python object
identity: `formatted = metadata.copy()` allocates a fresh dictionary
and every subsequent store targets it.  We therefore embed the body
over an explicit heap of dictionaries addressed by references, with
`copy` as allocation and subscript-assignment as a store. -/

/-- Configuration entries read by the formatter, at their documented
types (`config.get(section, {}).get(key, default)` is modelled by
`Option` fields with the source's defaults applied at the read
sites). -/
structure FormattingCfg where
  multi_value_delimiter : Option String := none
  use_full_release_date_as_year : Option Bool := none
  single_album_artist : Option Bool := none
  narrator_in_artist_field : Option Bool := none

/-- Configuration entries read by the organizer. -/
structure OrganizerCfg where
  max_filename_length : Option Nat := none
  create_opf : Option Bool := none
  min_file_size_mb : Option Nat := none

/-- The loaded configuration, restricted to the keys this pipeline
reads. -/
structure Config where
  formatting : Option FormattingCfg := none
  organizer : Option OrganizerCfg := none

/-- A heap of Python dictionaries, addressed by allocation order. -/
abbrev Heap := List Metadata

def hGet (h : Heap) (r : Nat) : Metadata := h.getD r []

/-- `d[k] = v` on the dictionary at reference `r`. -/
def hSet (h : Heap) (r : Nat) (k : String) (v : MVal) : Heap :=
  h.set r (dictSet (hGet h r) k v)

/-- `d.copy()`: allocate a fresh dictionary with the same entries. -/
def hAlloc (h : Heap) (d : Metadata) : Heap × Nat := (h ++ [d], h.length)

/-- `metadata.get(key, [])` where the value is a list of names.  (The
catalog parser always stores `authors`/`narrators` as string lists;
other value shapes would fault inside Python's `join` and are outside
the model.) -/
def mGetStrList (d : Metadata) (k : String) : List String :=
  match List.lookup k d with
  | some (.strList l) => l
  | _ => []

/-- Read back a string entry (used for `formatted["formatted_album_artist"]`,
which the function has always stored as a string by then). -/
def mGetStr (d : Metadata) (k : String) : String :=
  match List.lookup k d with
  | some (.str s) => s
  | _ => ""

/-- `main.apply_formatting_rules`, embedded over the dictionary heap:
`rMeta` is the reference of the input dictionary, the result is the
updated heap and the reference of the returned dictionary. -/
def apply_formatting_rules_heap (h : Heap) (rMeta : Nat) (config : Config) :
    Heap × Nat :=
  let fmt := config.formatting.getD {}
  let delimiter := fmt.multi_value_delimiter.getD " & "
  let metadata := hGet h rMeta
  let authors := mGetStrList metadata "authors"
  let narrators := mGetStrList metadata "narrators"
  -- formatted = metadata.copy()
  let alloc := hAlloc h metadata
  let h1 := alloc.1
  let rF := alloc.2
  let h2 :=
    if fmt.use_full_release_date_as_year.getD false then
      hSet h1 rF "formatted_year" ((List.lookup "release_date" metadata).getD .null)
    else
      hSet h1 rF "formatted_year" ((List.lookup "year" metadata).getD .null)
  let h4 :=
    if fmt.single_album_artist.getD false && !authors.isEmpty then
      hSet (hSet h2 rF "formatted_album_artist" (.str (authors.headD "")))
        rF "formatted_album_artists_list" (.str (joinWith delimiter authors))
    else
      hSet (hSet h2 rF "formatted_album_artist" (.str (joinWith delimiter authors)))
        rF "formatted_album_artists_list" .null
  -- artist_parts = [formatted["formatted_album_artist"]] (+ narrators)
  let albumArtist := mGetStr (hGet h4 rF) "formatted_album_artist"
  let parts :=
    albumArtist ::
      (if fmt.narrator_in_artist_field.getD true && !narrators.isEmpty then
        [joinWith delimiter narrators]
      else [])
  let h5 := hSet h4 rF "formatted_artist"
    (.str (joinWith " & " (parts.filter strTruthy)))
  let h6 := hSet h5 rF "formatted_narrator" (.str (joinWith delimiter narrators))
  (h6, rF)

/-- The value-level formatter: run the heap embedding on a one-cell
heap and read the returned dictionary. -/
def apply_formatting_rules (metadata : Metadata) (config : Config) : Metadata :=
  let out := apply_formatting_rules_heap [metadata] 0 config
  hGet out.1 out.2

lemma hGet_hSet_ne (h : Heap) (r r' : Nat) (k : String) (v : MVal)
    (hne : r ≠ r') : hGet (hSet h r k v) r' = hGet h r' := by
  unfold hGet hSet
  simp [List.getD_eq_getElem?_getD, List.getElem?_set_ne hne]

lemma hGet_append_lt (h : Heap) (d : Metadata) (r : Nat) (hr : r < h.length) :
    hGet (h ++ [d]) r = hGet h r := by
  unfold hGet
  rw [List.getD_eq_getElem?_getD, List.getD_eq_getElem?_getD,
    List.getElem?_append, if_pos hr]

/-- C10: `apply_formatting_rules` never mutates its input: every store
of a derived field targets the freshly copied dictionary, so the input
reference holds exactly its original entries afterwards, and the
returned reference is a different cell. -/
theorem apply_formatting_rules_frame (h : Heap) (rMeta : Nat) (config : Config)
    (hr : rMeta < h.length) :
    hGet (apply_formatting_rules_heap h rMeta config).1 rMeta = hGet h rMeta ∧
      (apply_formatting_rules_heap h rMeta config).2 ≠ rMeta := by
  have hne : h.length ≠ rMeta := by omega
  unfold apply_formatting_rules_heap
  simp only [hAlloc]
  constructor
  · by_cases h1 : (config.formatting.getD {}).use_full_release_date_as_year.getD false <;>
      by_cases h2 : (config.formatting.getD {}).single_album_artist.getD false &&
        !(mGetStrList (hGet h rMeta) "authors").isEmpty <;>
      simp [h1, h2, hGet_hSet_ne _ _ _ _ _ hne, hGet_append_lt _ _ _ hr]
  · simp [hne]

/-- Witness for C10 on a concrete one-cell heap. -/
theorem apply_formatting_rules_frame_witness :
    hGet (apply_formatting_rules_heap [[("title", MVal.str "T")]] 0 {}).1 0 =
        hGet [[("title", MVal.str "T")]] 0 ∧
      (apply_formatting_rules_heap [[("title", MVal.str "T")]] 0 {}).2 ≠ 0 :=
  apply_formatting_rules_frame [[("title", MVal.str "T")]] 0 {} (by decide)

/-! ## File manager and the batch loop (src/file_manager.py, src/main.py)

The filesystem is an oracle; every performed (not dry-run) filesystem
action is recorded as an event, so that claims about relocations,
ledger commits and dry-run purity are statements about the event
trace.  The `(source, destination)` pair computed by
`organize_audio_file` (src/file_manager.py line 105) is recorded as a
`decision` event in both modes: the dry run logs it, the real run
executes it. -/

inductive Event where
  | decision (src dest : String)
  | mkdir (path : String) (ok : Bool)
  | fileOp (src dest : String) (move : Bool) (ok : Bool)
  | metaWrite (folder : String)
  | coverDownload (path : String)
  | ledgerAppend (src : String)
  | failedMove (src : String)
deriving DecidableEq

/-- The filesystem/ledger oracles.  `mkdirOk`/`fileOpOk` answer whether
the operation succeeds (`False` models the `OSError` the code
catches); `writeMeta`, `download` and `appendLog` may raise. -/
structure FsEnv where
  mkdirOk : String → Bool
  fileOpOk : String → String → Bool → Bool
  writeMeta : String → Except Exn Unit
  download : String → Except Exn Bool
  appendLog : String → Except Exn Unit

/-- Python truthiness of a metadata value. -/
def pyTruthyM : MVal → Bool
  | .str s => strTruthy s
  | .strList l => !l.isEmpty
  | .null => false
  | .json j => pyTruthy j

/-- f-string rendering of a metadata value (`str()`). -/
def pyStrM : MVal → String
  | .str s => s
  | .strList l => "[" ++ joinWith ", " (l.map (fun s => "'" ++ s ++ "'")) ++ "]"
  | .null => "None"
  | .json j => pyStrJ j

/-- Python `value[0]` on a truthy metadata value: first name of a list,
first character of a string; anything else raises. -/
def mIndex0Str : MVal → Except Exn String
  | .strList (a :: _) => .ok a
  | .str s =>
    match s.data with
    | c :: _ => .ok ⟨[c]⟩
    | [] => .error (.other 0)
  | _ => .error .typeError

/-- `sanitize_filename(value, max_len)` on a metadata value: a falsy
argument returns `""` (the `if not filename` guard), a truthy string is
sanitized, and a truthy non-string raises inside `re.sub`. -/
def sanitizeM (v : MVal) (maxLen : Nat) : Except Exn String :=
  if !(pyTruthyM v) then .ok ""
  else
    match v with
    | .str s => .ok (sanitize_filename s maxLen)
    | _ => .error .typeError

/-- `pathlib` suffix of a slash-free name (the complement of
`pyStem`). -/
def pathSuffix (s : String) : String :=
  match (List.range s.data.length).reverse.find?
      (fun i => s.data.getD i ' ' == '.') with
  | some i =>
    if 0 < i && i + 1 < s.data.length then ⟨s.data.drop i⟩ else ""
  | none => ""

example : pathSuffix "a b.m4b" = ".m4b" := by decide
example : pathSuffix "noext" = "" := by decide

/-- The batch-run configuration `run_scan` receives (function arguments
plus the config file). -/
structure RunCfg where
  output_dir : String
  config : Config
  move_files : Bool
  dry_run : Bool

/-- The pure path derivation of `create_book_structure`
(src/file_manager.py lines 21-50): the target folder
`{output}/{author}[/{series}]/{title {authors} {year}}` from the
formatted metadata, `none` when the sanitized title is empty. -/
def book_target_folder (output_dir : String) (metadata : Metadata)
    (config : Config) : Except Exn (Option String) :=
  let max_len := (config.organizer.getD {}).max_filename_length.getD 200
  let primaryE :=
    match List.lookup "authors" metadata with
    | some v => if pyTruthyM v then mIndex0Str v else .ok "Unknown Author"
    | none => .ok "Unknown Author"
  match primaryE with
  | .error e => .error e
  | .ok primary_author =>
    let author_folder_name := sanitize_filename primary_author max_len
    let all_authors_str :=
      pyStrM ((List.lookup "formatted_album_artist" metadata).getD
        (.str "Unknown Author"))
    match sanitizeM ((List.lookup "title" metadata).getD (.str "")) max_len with
    | .error e => .error e
    | .ok title_str =>
      if !(strTruthy title_str) then .ok none
      else
        let year_str :=
          pyStrM ((List.lookup "formatted_year" metadata).getD (.str ""))
        match sanitizeM ((List.lookup "series" metadata).getD (.str "")) max_len with
        | .error e => .error e
        | .ok series_str =>
          let book_folder_name :=
            sanitize_filename
              (title_str ++ " \x7b" ++ all_authors_str ++ "\x7d \x7b" ++
                year_str ++ "\x7d") max_len
          let base := output_dir ++ "/" ++ author_folder_name
          let base :=
            if strTruthy series_str then base ++ "/" ++ series_str else base
          .ok (some (base ++ "/" ++ book_folder_name))

/-- `file_manager.create_book_structure` (src/file_manager.py lines
11-63): derive the target folder and create it (unless dry-run).
Returns the performed events and the folder, `none` on an empty title
or a failed `mkdir`. -/
def create_book_structure (fs : FsEnv) (output_dir : String)
    (metadata : Metadata) (config : Config) (dry_run : Bool) :
    List Event × Except Exn (Option String) :=
  match book_target_folder output_dir metadata config with
  | .error e => ([], .error e)
  | .ok none => ([], .ok none)
  | .ok (some target_folder) =>
    if dry_run then ([], .ok (some target_folder))
    else if fs.mkdirOk target_folder then
      ([.mkdir target_folder true], .ok (some target_folder))
    else
      ([.mkdir target_folder false], .ok none)

/-- The pure renaming block of `organize_audio_file`
(src/file_manager.py lines 88-105): the destination file path
`{folder}/{title}[ {series}] {authors} {year}{ext}`. -/
def organize_target_file (source_name target_folder : String)
    (metadata : Metadata) (config : Config) : Except Exn String :=
  let max_len := (config.organizer.getD {}).max_filename_length.getD 200
  match sanitizeM ((List.lookup "title" metadata).getD (.str "")) max_len with
  | .error e => .error e
  | .ok title_str =>
    match sanitizeM ((List.lookup "series" metadata).getD (.str "")) max_len with
    | .error e => .error e
    | .ok series_str =>
      let all_authors_str :=
        pyStrM ((List.lookup "formatted_album_artist" metadata).getD
          (.str "Unknown Author"))
      let year_str :=
        pyStrM ((List.lookup "formatted_year" metadata).getD (.str ""))
      let series_part :=
        if strTruthy series_str then " \x7b" ++ series_str ++ "\x7d" else ""
      let new_filename :=
        sanitize_filename
          (title_str ++ series_part ++ " \x7b" ++ all_authors_str ++
            "\x7d \x7b" ++ year_str ++ "\x7d" ++ pathSuffix source_name)
          max_len
      .ok (target_folder ++ "/" ++ new_filename)

/-- `file_manager.organize_audio_file` (src/file_manager.py lines
65-115): create the folder, derive the renamed target file, record the
`(source, destination)` decision, and perform the copy/move through
`_safe_file_op` (which swallows `OSError`, so a failed operation still
returns the folder). -/
def organize_audio_file (fs : FsEnv) (source_path source_name : String)
    (output_dir : String) (metadata : Metadata) (config : Config)
    (dry_run move : Bool) : List Event × Except Exn (Option String) :=
  let cbs := create_book_structure fs output_dir metadata config dry_run
  match cbs.2 with
  | .error e => (cbs.1, .error e)
  | .ok none => (cbs.1, .ok none)
  | .ok (some target_folder) =>
    match organize_target_file source_name target_folder metadata config with
    | .error e => (cbs.1, .error e)
    | .ok target_file_path =>
      let dec := Event.decision source_path target_file_path
      if dry_run then (cbs.1 ++ [dec], .ok (some target_folder))
      else
        let opOk := fs.fileOpOk source_path target_file_path move
        (cbs.1 ++ [dec, .fileOp source_path target_file_path move opOk],
          .ok (some target_folder))

/-- `file_manager.move_to_failed_folder` (src/file_manager.py lines
132-158): a no-op under dry-run, otherwise a relocation into
`__FAILED_TO_PROCESS__` whose `OSError`s are swallowed. -/
def move_to_failed_folder (source_path : String) (dry_run : Bool) :
    List Event :=
  if dry_run then [] else [.failedMove source_path]

/-- `metadata_writer.write_metadata_files` (src/metadata_writer.py lines
34-97): every write is guarded by `dry_run`; the real writes (OPF or
text fallbacks plus the raw JSON dump) are one oracle call — the claims
depend only on whether writing happened and whether it raised. -/
def write_metadata_files (fs : FsEnv) (folder : String) (dry_run : Bool) :
    List Event × Except Exn Unit :=
  if dry_run then ([], .ok ())
  else ([.metaWrite folder], fs.writeMeta folder)

/-- `AudibleClient.download_cover` (src/audible_client.py lines
271-303): no URL means `False` before any filesystem access; dry-run
returns `True` without touching anything; the real download is an
oracle call (its `open` can raise an uncaught `OSError`). -/
def download_cover (fs : FsEnv) (cover_url : MVal) (save_path : String)
    (dry_run : Bool) : List Event × Except Exn Bool :=
  if !(pyTruthyM cover_url) then ([], .ok false)
  else if dry_run then ([], .ok true)
  else ([.coverDownload save_path], fs.download save_path)

/-- `utils.append_to_processed_log` (src/utils.py lines 147-189): the
in-memory dict gains the entry and the ledger file is rewritten; the
oracle may raise (the chmod/write internals catch only some
errors). -/
def append_to_processed_log (fs : FsEnv) (src : String) :
    List Event × Except Exn Unit :=
  ([.ledgerAppend src], fs.appendLog src)

/-- All oracles `run_scan` consults. -/
structure ScanEnv where
  resolve : ResolveEnv
  client : ClientEnv
  fs : FsEnv

/-- The `try:` block of `run_scan`'s per-file loop (src/main.py lines
249-290), entered with the resolved truthy identifier: metadata fetch,
title validation, organizing, artifact writing, cover download, and the
ledger append (skipped under dry-run).  Returns the events performed
and, unless an exception escapes, the `(processed, failed)`
increments. -/
def try_body (env : ScanEnv) (cfg : RunCfg) (item : Candidate)
    (asin : String) : List Event × Except Exn (Nat × Nat) :=
  match get_metadata_by_asin env.client asin with
  | .error e => ([], .error e)
  | .ok raw_opt =>
    match raw_opt with
    | none => (move_to_failed_folder item.path cfg.dry_run, .ok (0, 1))
    | some raw =>
      if !(pyTruthyM ((List.lookup "title" raw).getD .null)) then
        (move_to_failed_folder item.path cfg.dry_run, .ok (0, 1))
      else
        let metadata := apply_formatting_rules raw cfg.config
        let org := organize_audio_file env.fs item.path item.name
          cfg.output_dir metadata cfg.config cfg.dry_run cfg.move_files
        match org.2 with
        | .error e => (org.1, .error e)
        | .ok none =>
          (org.1 ++ move_to_failed_folder item.path cfg.dry_run, .ok (0, 1))
        | .ok (some target_folder) =>
          let wm := write_metadata_files env.fs target_folder cfg.dry_run
          match wm.2 with
          | .error e => (org.1 ++ wm.1, .error e)
          | .ok () =>
            let dl := download_cover env.fs
              ((List.lookup "cover_url" metadata).getD .null)
              (target_folder ++ "/cover.jpg") cfg.dry_run
            match dl.2 with
            | .error e => (org.1 ++ wm.1 ++ dl.1, .error e)
            | .ok _ =>
              if cfg.dry_run then (org.1 ++ wm.1 ++ dl.1, .ok (1, 0))
              else
                let ap := append_to_processed_log env.fs item.path
                match ap.2 with
                | .error e => (org.1 ++ wm.1 ++ dl.1 ++ ap.1, .error e)
                | .ok () => (org.1 ++ wm.1 ++ dl.1 ++ ap.1, .ok (1, 0))

/-- One iteration of `run_scan`'s per-file loop (src/main.py lines
193-295).  The resolution waterfall runs *outside* the `try:` block;
only the processing stages are protected by the catch-all, which
converts an exception into a failed-folder relocation and a failure
increment. -/
def process_item (env : ScanEnv) (cfg : RunCfg) (item : Candidate) :
    List Event × Except Exn (Nat × Nat) :=
  match resolve_asin env.resolve item with
  | .error e => ([], .error e)
  | .ok r =>
    if !(optTruthy r.best_asin) then
      (move_to_failed_folder item.path cfg.dry_run, .ok (0, 1))
    else
      match try_body env cfg item (r.best_asin.getD "") with
      | (evs, .ok counts) => (evs, .ok counts)
      | (evs, .error _) =>
        (evs ++ move_to_failed_folder item.path cfg.dry_run, .ok (0, 1))

/-- The batch loop of `run_scan` over the scanned candidates: an
exception escaping one iteration aborts the whole run. -/
def run_scan_items (env : ScanEnv) (cfg : RunCfg) :
    List Candidate → List Event × Except Exn (Nat × Nat)
  | [] => ([], .ok (0, 0))
  | item :: rest =>
    match process_item env cfg item with
    | (evs, .error e) => (evs, .error e)
    | (evs, .ok (p, f)) =>
      match run_scan_items env cfg rest with
      | (evs', .error e) => (evs ++ evs', .error e)
      | (evs', .ok (p', f')) => (evs ++ evs', .ok (p + p', f + f'))

/-! ## Claim C3: exception propagation in the batch loop -/

/-- C3 (counterexample): an exception raised during the resolution
waterfall (here: the tag reader) is *not* caught inside the per-file
loop — the `try:` of `run_scan` only starts after resolution — so it
aborts the whole batch: no relocation happens, no failure counter is
incremented, and the second candidate is never processed. -/
theorem run_scan_abort_counterexample :
    run_scan_items
        ⟨⟨[], fun _ => .error (.other 7), fun _ _ => .ok none⟩,
          ⟨fun _ _ => none, fun _ _ => none, "https://www.audible.com"⟩,
          ⟨fun _ => true, fun _ _ _ => true, fun _ => .ok (),
            fun _ => .ok true, fun _ => .ok ()⟩⟩
        ⟨"/out", {}, false, false⟩
        [⟨"/in/a.m4b", "a.m4b", "in", true⟩, ⟨"/in/b.m4b", "b.m4b", "in", true⟩] =
      ([], .error (.other 7)) := by
  rfl

/-- C3 (amended): once the resolution waterfall has returned without
raising, no exception escapes the per-file iteration: any exception
raised inside the processing stages (metadata fetch, organizing,
artifact writing, cover download, ledger append) is caught and
converted into a failed-folder relocation plus a failure-counter
increment.  Exceptions raised during the waterfall itself are not
covered by the catch-all. -/
theorem process_item_catches_after_resolution (env : ScanEnv) (cfg : RunCfg)
    (item : Candidate) (r : Resolution)
    (hres : resolve_asin env.resolve item = .ok r) :
    (process_item env cfg item).2.isOk = true ∧
      (∀ evs e, optTruthy r.best_asin = true →
        try_body env cfg item (r.best_asin.getD "") = (evs, .error e) →
        process_item env cfg item =
          (evs ++ move_to_failed_folder item.path cfg.dry_run, .ok (0, 1))) := by
  constructor
  · unfold process_item
    rw [hres]
    rcases htb : try_body env cfg item (r.best_asin.getD "") with ⟨evs, res⟩
    by_cases ht : optTruthy r.best_asin = true
    · cases res <;> simp [ht, htb, Except.isOk, Except.toBool]
    · have ht2 : optTruthy r.best_asin = false := by
        revert ht; cases optTruthy r.best_asin <;> simp
      simp [ht2, Except.isOk, Except.toBool]
  · intro evs e ht htb
    unfold process_item
    rw [hres]
    simp [ht, htb]

/-- Witness for the amended C3: a candidate with no tags and no search
hits resolves to nothing, and the iteration ends without an
exception. -/
theorem process_item_catches_after_resolution_witness :
    (process_item
        ⟨⟨[], fun _ => .ok ⟨none, none, none⟩, fun _ _ => .ok none⟩,
          ⟨fun _ _ => none, fun _ _ => none, "https://www.audible.com"⟩,
          ⟨fun _ => true, fun _ _ _ => true, fun _ => .ok (),
            fun _ => .ok true, fun _ => .ok ()⟩⟩
        ⟨"/out", {}, false, false⟩
        ⟨"/in/a.m4b", "a.m4b", "in", true⟩).2.isOk = true :=
  (process_item_catches_after_resolution
    ⟨⟨[], fun _ => .ok ⟨none, none, none⟩, fun _ _ => .ok none⟩,
      ⟨fun _ _ => none, fun _ _ => none, "https://www.audible.com"⟩,
      ⟨fun _ => true, fun _ _ _ => true, fun _ => .ok (),
        fun _ => .ok true, fun _ => .ok ()⟩⟩
    ⟨"/out", {}, false, false⟩
    ⟨"/in/a.m4b", "a.m4b", "in", true⟩
    ⟨none, 1, ["a"]⟩ rfl).1

/-! ## Claim C4: ledger commit conditions -/

lemma ledger_not_in_create (s : String) (fs : FsEnv) (out : String)
    (md : Metadata) (config : Config) (dry : Bool) :
    Event.ledgerAppend s ∉ (create_book_structure fs out md config dry).1 := by
  unfold create_book_structure
  rcases book_target_folder out md config with e | o
  · simp
  · rcases o with _ | t
    · simp
    · by_cases hd : dry
      · simp [hd]
      · by_cases hm : fs.mkdirOk t <;> simp [hd, hm]

lemma ledger_not_in_organize (s : String) (fs : FsEnv) (sp sn out : String)
    (md : Metadata) (config : Config) (dry move : Bool) :
    Event.ledgerAppend s ∉
      (organize_audio_file fs sp sn out md config dry move).1 := by
  have hc := fun d => ledger_not_in_create s fs out md config d
  unfold organize_audio_file
  dsimp only
  rcases h2 : (create_book_structure fs out md config dry).2 with e | o
  · simpa using hc dry
  · rcases o with _ | t
    · simpa using hc dry
    · dsimp only
      rcases h3 : organize_target_file sn t md config with e | tf
      · simpa using hc dry
      · by_cases hd : dry <;>
          simp [hd, List.mem_append, hc true, hc false]

set_option maxRecDepth 4000 in
/-- C4 (amended): a ledger entry is committed only in a real (non
dry-run) run, only for the processed candidate's own source path, and
only after the artifact-writing stage has been reached (a `metaWrite`
of the target folder is in the trace); a failed copy/move does *not*
prevent the commit, because `_safe_file_op` swallows the `OSError`. -/
theorem ledger_commit_only_after_artifacts (env : ScanEnv) (cfg : RunCfg)
    (item : Candidate) (asin s : String)
    (h : Event.ledgerAppend s ∈ (try_body env cfg item asin).1) :
    cfg.dry_run = false ∧ s = item.path ∧
      ∃ folder, Event.metaWrite folder ∈ (try_body env cfg item asin).1 := by
  rcases htb : try_body env cfg item asin with ⟨evs, res⟩
  rw [htb] at h
  simp only at h ⊢
  unfold try_body at htb
  dsimp only at htb
  by_cases hdry : cfg.dry_run = true
  · rw [hdry] at htb
    repeat' split at htb
    all_goals injection htb with hE hR
    all_goals subst hE
    all_goals
      simp_all [move_to_failed_folder, write_metadata_files, download_cover,
        append_to_processed_log, List.mem_append, ledger_not_in_organize,
        apply_ite Prod.fst, apply_ite Prod.snd, ite_self]
  · have hdry2 : cfg.dry_run = false := by
      revert hdry; cases cfg.dry_run <;> simp
    rw [hdry2] at htb
    repeat' split at htb
    all_goals injection htb with hE hR
    all_goals subst hE
    all_goals
      simp_all [move_to_failed_folder, write_metadata_files, download_cover,
        append_to_processed_log, List.mem_append, ledger_not_in_organize,
        apply_ite Prod.fst, apply_ite Prod.snd, ite_self]

/-- C4 (counterexample): a real run in which the copy/move placement
*fails* (the operation oracle reports the `OSError` that
`_safe_file_op` catches) still appends the ledger entry for the source
path and reports the file as successfully processed: the claim's "if
placement fails, no ledger entry is written" is false. -/
theorem ledger_written_despite_failed_placement :
    try_body
        ⟨⟨[], fun _ => .ok ⟨none, none, none⟩, fun _ _ => .ok none⟩,
          ⟨fun _ _ => some [("product", .obj
              [("asin", .str "B0ABCD1234"), ("title", .str "My Book"),
               ("authors", .arr [.obj [("name", .str "Jane Doe")]]),
               ("release_date", .str "2020-01-01")])],
            fun _ _ => none, "https://www.audible.com"⟩,
          ⟨fun _ => true, fun _ _ _ => false, fun _ => .ok (),
            fun _ => .ok true, fun _ => .ok ()⟩⟩
        ⟨"/out", {}, true, false⟩ ⟨"/in/f.m4b", "f.m4b", "in", true⟩
        "B0ABCD1234" =
      ([.mkdir "/out/Jane Doe/My Book \x7bJane Doe\x7d \x7b2020\x7d" true,
        .decision "/in/f.m4b" "/out/Jane Doe/My Book \x7bJane Doe\x7d \x7b2020\x7d/My Book \x7bJane Doe\x7d \x7b2020\x7d.m4b",
        .fileOp "/in/f.m4b" "/out/Jane Doe/My Book \x7bJane Doe\x7d \x7b2020\x7d/My Book \x7bJane Doe\x7d \x7b2020\x7d.m4b" true false,
        .metaWrite "/out/Jane Doe/My Book \x7bJane Doe\x7d \x7b2020\x7d",
        .ledgerAppend "/in/f.m4b"], .ok (1, 0)) := by
  rfl

/-- Witness for the amended C4 at the same failed-placement run: the
theorem's conclusion holds there — the run is real, the entry is for
the candidate's own source path, and a `metaWrite` precedes in the
trace. -/
theorem ledger_commit_only_after_artifacts_witness :
    (⟨"/out", {}, true, false⟩ : RunCfg).dry_run = false ∧
      "/in/f.m4b" = (⟨"/in/f.m4b", "f.m4b", "in", true⟩ : Candidate).path ∧
      ∃ folder, Event.metaWrite folder ∈
        (try_body
          ⟨⟨[], fun _ => .ok ⟨none, none, none⟩, fun _ _ => .ok none⟩,
            ⟨fun _ _ => some [("product", .obj
                [("asin", .str "B0ABCD1234"), ("title", .str "My Book"),
                 ("authors", .arr [.obj [("name", .str "Jane Doe")]]),
                 ("release_date", .str "2020-01-01")])],
              fun _ _ => none, "https://www.audible.com"⟩,
            ⟨fun _ => true, fun _ _ _ => false, fun _ => .ok (),
              fun _ => .ok true, fun _ => .ok ()⟩⟩
          ⟨"/out", {}, true, false⟩ ⟨"/in/f.m4b", "f.m4b", "in", true⟩
          "B0ABCD1234").1 :=
  ledger_commit_only_after_artifacts _ _ _ "B0ABCD1234" "/in/f.m4b"
    (by decide)

/-! ## Claim C5: dry-run equivalence -/

/-- Whether an event is a `(source, destination)` renaming decision. -/
def isDecision : Event → Bool
  | .decision _ _ => true
  | _ => false

/-- The subsequence of `(source, destination)` decisions of a trace. -/
def decisionsOf (evs : List Event) : List Event :=
  evs.filter isDecision

lemma decisionsOf_append (a b : List Event) :
    decisionsOf (a ++ b) = decisionsOf a ++ decisionsOf b := by
  simp [decisionsOf]

lemma create_events_dry (fs : FsEnv) (out : String) (md : Metadata)
    (config : Config) :
    (create_book_structure fs out md config true).1 = [] := by
  unfold create_book_structure
  rcases book_target_folder out md config with e | _ | t <;> simp

lemma create_result_dry_real (fs : FsEnv) (out : String) (md : Metadata)
    (config : Config) (hmk : ∀ p, fs.mkdirOk p = true) :
    (create_book_structure fs out md config false).2 =
      (create_book_structure fs out md config true).2 := by
  unfold create_book_structure
  rcases book_target_folder out md config with e | _ | t
  · rfl
  · rfl
  · simp [hmk t]

lemma decisionsOf_create (fs : FsEnv) (out : String) (md : Metadata)
    (config : Config) (dry : Bool) :
    decisionsOf (create_book_structure fs out md config dry).1 = [] := by
  unfold create_book_structure
  rcases book_target_folder out md config with e | _ | t
  · simp [decisionsOf]
  · simp [decisionsOf]
  · by_cases hd : dry = true
    · simp [hd, decisionsOf]
    · by_cases hm : fs.mkdirOk t = true <;>
        simp [hd, hm, decisionsOf, isDecision]

lemma filter_isDecision_create (fs : FsEnv) (out : String) (md : Metadata)
    (config : Config) (dry : Bool) :
    List.filter isDecision (create_book_structure fs out md config dry).1 = [] :=
  decisionsOf_create fs out md config dry

lemma organize_result_dry_real (fs : FsEnv) (sp sn out : String)
    (md : Metadata) (config : Config) (move : Bool)
    (hmk : ∀ p, fs.mkdirOk p = true) :
    (organize_audio_file fs sp sn out md config false move).2 =
      (organize_audio_file fs sp sn out md config true move).2 := by
  unfold organize_audio_file
  dsimp only
  rw [create_result_dry_real fs out md config hmk]
  rcases h : (create_book_structure fs out md config true).2 with e | _ | t
  · rfl
  · rfl
  · dsimp only
    rcases h2 : organize_target_file sn t md config with e | tf <;> simp

lemma decisionsOf_organize_dry_real (fs : FsEnv) (sp sn out : String)
    (md : Metadata) (config : Config) (move : Bool)
    (hmk : ∀ p, fs.mkdirOk p = true) :
    decisionsOf (organize_audio_file fs sp sn out md config false move).1 =
      decisionsOf (organize_audio_file fs sp sn out md config true move).1 := by
  unfold organize_audio_file
  dsimp only
  rw [create_result_dry_real fs out md config hmk]
  rcases h : (create_book_structure fs out md config true).2 with e | _ | t
  · simp [decisionsOf_create]
  · simp [decisionsOf_create]
  · dsimp only
    rcases h2 : organize_target_file sn t md config with e | tf
    · simp [decisionsOf_create]
    · simp [decisionsOf, isDecision, filter_isDecision_create]

lemma organize_dry_all (fs : FsEnv) (sp sn out : String) (md : Metadata)
    (config : Config) (move : Bool) :
    ∀ e ∈ (organize_audio_file fs sp sn out md config true move).1,
      isDecision e = true := by
  unfold organize_audio_file
  dsimp only
  have h1 := create_events_dry fs out md config
  rcases h : (create_book_structure fs out md config true).2 with e | _ | t
  · simp [h1]
  · simp [h1]
  · dsimp only
    rcases h2 : organize_target_file sn t md config with e | tf
    · simp [h1]
    · simp [h1, isDecision]

lemma filter_isDecision_organize (fs : FsEnv) (sp sn out : String)
    (md : Metadata) (config : Config) (move : Bool)
    (hmk : ∀ p, fs.mkdirOk p = true) :
    List.filter isDecision (organize_audio_file fs sp sn out md config false move).1 =
      List.filter isDecision (organize_audio_file fs sp sn out md config true move).1 :=
  decisionsOf_organize_dry_real fs sp sn out md config move hmk

lemma try_body_decisions (env : ScanEnv) (out : String) (config : Config)
    (move : Bool) (item : Candidate) (asin : String)
    (hmk : ∀ p, env.fs.mkdirOk p = true) :
    decisionsOf (try_body env ⟨out, config, move, false⟩ item asin).1 =
      decisionsOf (try_body env ⟨out, config, move, true⟩ item asin).1 := by
  unfold try_body
  dsimp only
  rcases hgm : get_metadata_by_asin env.client asin with e | ropt
  · rfl
  · rcases ropt with _ | raw
    · simp [move_to_failed_folder, decisionsOf, isDecision]
    · have hforg := filter_isDecision_organize env.fs item.path item.name out
        (apply_formatting_rules raw config) config move hmk
      by_cases htt : pyTruthyM ((List.lookup "title" raw).getD .null) = true
      · simp only [htt, Bool.not_true, Bool.false_eq_true, if_false]
        rw [organize_result_dry_real env.fs item.path item.name out
          (apply_formatting_rules raw config) config move hmk]
        rcases horg : (organize_audio_file env.fs item.path item.name out
            (apply_formatting_rules raw config) config true move).2 with e | _ | t
        · exact hforg
        · simp [move_to_failed_folder, decisionsOf, isDecision, hforg]
        · by_cases hcov : pyTruthyM
              ((List.lookup "cover_url" (apply_formatting_rules raw config)).getD
                .null) = true <;>
            rcases hwm : env.fs.writeMeta t with e1 | _ <;>
            rcases hdl : env.fs.download (t ++ "/cover.jpg") with e2 | b <;>
            rcases hap : env.fs.appendLog item.path with e3 | _ <;>
            simp [write_metadata_files, download_cover, append_to_processed_log,
              hcov, hwm, hdl, hap, decisionsOf, isDecision, hforg,
              move_to_failed_folder]
      · have htt2 : pyTruthyM ((List.lookup "title" raw).getD .null) = false := by
          revert htt; cases pyTruthyM ((List.lookup "title" raw).getD .null) <;> simp
        simp [htt2, move_to_failed_folder, decisionsOf, isDecision]

lemma try_body_dry_all (env : ScanEnv) (out : String) (config : Config)
    (move : Bool) (item : Candidate) (asin : String) :
    ∀ e ∈ (try_body env ⟨out, config, move, true⟩ item asin).1,
      isDecision e = true := by
  unfold try_body
  dsimp only
  rcases hgm : get_metadata_by_asin env.client asin with e | ropt
  · simp
  · rcases ropt with _ | raw
    · simp [move_to_failed_folder]
    · have hall := organize_dry_all env.fs item.path item.name out
        (apply_formatting_rules raw config) config move
      by_cases htt : pyTruthyM ((List.lookup "title" raw).getD .null) = true
      · simp only [htt, Bool.not_true, Bool.false_eq_true, if_false]
        rcases horg : (organize_audio_file env.fs item.path item.name out
            (apply_formatting_rules raw config) config true move).2 with e | _ | t
        · simpa using hall
        · simpa [move_to_failed_folder] using hall
        · by_cases hcov : pyTruthyM
              ((List.lookup "cover_url" (apply_formatting_rules raw config)).getD
                .null) = true <;>
            simpa [write_metadata_files, download_cover, hcov] using hall
      · have htt2 : pyTruthyM ((List.lookup "title" raw).getD .null) = false := by
          revert htt; cases pyTruthyM ((List.lookup "title" raw).getD .null) <;> simp
        simp [htt2, move_to_failed_folder]

lemma process_item_decisions (env : ScanEnv) (out : String) (config : Config)
    (move : Bool) (item : Candidate)
    (hmk : ∀ p, env.fs.mkdirOk p = true) :
    decisionsOf (process_item env ⟨out, config, move, false⟩ item).1 =
      decisionsOf (process_item env ⟨out, config, move, true⟩ item).1 := by
  unfold process_item
  dsimp only
  rcases hres : resolve_asin env.resolve item with e | r
  · rfl
  · by_cases ht : optTruthy r.best_asin = true
    · simp only [ht, Bool.not_true, Bool.false_eq_true, if_false]
      have hdec := try_body_decisions env out config move item
        (r.best_asin.getD "") hmk
      rcases htbR : try_body env ⟨out, config, move, false⟩ item
          (r.best_asin.getD "") with ⟨evsR, resR⟩
      rcases htbD : try_body env ⟨out, config, move, true⟩ item
          (r.best_asin.getD "") with ⟨evsD, resD⟩
      rw [htbR, htbD] at hdec
      simp only at hdec
      cases resR <;> cases resD <;>
        simp [move_to_failed_folder, decisionsOf, isDecision] <;>
        simpa [decisionsOf] using hdec
    · have ht2 : optTruthy r.best_asin = false := by
        revert ht; cases optTruthy r.best_asin <;> simp
      simp [ht2, move_to_failed_folder, decisionsOf, isDecision]

lemma process_item_dry_all (env : ScanEnv) (out : String) (config : Config)
    (move : Bool) (item : Candidate) :
    ∀ e ∈ (process_item env ⟨out, config, move, true⟩ item).1,
      isDecision e = true := by
  unfold process_item
  dsimp only
  rcases hres : resolve_asin env.resolve item with e | r
  · simp
  · by_cases ht : optTruthy r.best_asin = true
    · simp only [ht, Bool.not_true, Bool.false_eq_true, if_false]
      have hall := try_body_dry_all env out config move item (r.best_asin.getD "")
      rcases htbD : try_body env ⟨out, config, move, true⟩ item
          (r.best_asin.getD "") with ⟨evsD, resD⟩
      rw [htbD] at hall
      simp only at hall
      cases resD <;> simpa [move_to_failed_folder] using hall
    · have ht2 : optTruthy r.best_asin = false := by
        revert ht; cases optTruthy r.best_asin <;> simp
      simp [ht2, move_to_failed_folder]

lemma process_item_res_rel (env : ScanEnv) (out : String) (config : Config)
    (move : Bool) (item : Candidate) :
    (∃ e, process_item env ⟨out, config, move, false⟩ item = ([], .error e) ∧
          process_item env ⟨out, config, move, true⟩ item = ([], .error e)) ∨
    ((∃ c, (process_item env ⟨out, config, move, false⟩ item).2 = .ok c) ∧
     (∃ c, (process_item env ⟨out, config, move, true⟩ item).2 = .ok c)) := by
  unfold process_item
  dsimp only
  rcases hres : resolve_asin env.resolve item with e | r
  · left; exact ⟨e, rfl, rfl⟩
  · right
    constructor
    · by_cases ht : optTruthy r.best_asin = true
      · rcases htb : try_body env ⟨out, config, move, false⟩ item
            (r.best_asin.getD "") with ⟨evs, res⟩
        cases res with
        | ok c => exact ⟨c, by simp [ht, htb]⟩
        | error e2 => exact ⟨(0, 1), by simp [ht, htb]⟩
      · have ht2 : optTruthy r.best_asin = false := by
          revert ht; cases optTruthy r.best_asin <;> simp
        exact ⟨(0, 1), by simp [ht2]⟩
    · by_cases ht : optTruthy r.best_asin = true
      · rcases htb : try_body env ⟨out, config, move, true⟩ item
            (r.best_asin.getD "") with ⟨evs, res⟩
        cases res with
        | ok c => exact ⟨c, by simp [ht, htb]⟩
        | error e2 => exact ⟨(0, 1), by simp [ht, htb]⟩
      · have ht2 : optTruthy r.best_asin = false := by
          revert ht; cases optTruthy r.best_asin <;> simp
        exact ⟨(0, 1), by simp [ht2]⟩

/-- C5: for a fixed candidate list and an identical configuration, and a
filesystem on which every directory creation succeeds, the sequence of
`(source path, destination path)` renaming decisions of a real run
equals that of the dry run, and the dry run's whole trace consists of
decision events only — it never touches the filesystem (no mkdir, no
copy/move, no artifact write, no cover download, no ledger append, no
failed-folder relocation). -/
theorem dry_run_equivalence (env : ScanEnv) (out : String) (config : Config)
    (move : Bool) (items : List Candidate)
    (hmk : ∀ p, env.fs.mkdirOk p = true) :
    decisionsOf (run_scan_items env ⟨out, config, move, false⟩ items).1 =
      decisionsOf (run_scan_items env ⟨out, config, move, true⟩ items).1 ∧
    ∀ e ∈ (run_scan_items env ⟨out, config, move, true⟩ items).1,
      isDecision e = true := by
  induction items with
  | nil => exact ⟨rfl, by simp [run_scan_items]⟩
  | cons item rest ih =>
    obtain ⟨ih1, ih2⟩ := ih
    rcases process_item_res_rel env out config move item with
      ⟨e, hRe, hDe⟩ | ⟨⟨cR, hRo⟩, ⟨cD, hDo⟩⟩
    · refine ⟨?_, ?_⟩ <;> simp [run_scan_items, hRe, hDe, decisionsOf]
    · have hpd := process_item_decisions env out config move item hmk
      have hpa := process_item_dry_all env out config move item
      rcases hR : process_item env ⟨out, config, move, false⟩ item
        with ⟨evsR, resR⟩
      rcases hD : process_item env ⟨out, config, move, true⟩ item
        with ⟨evsD, resD⟩
      rw [hR] at hRo hpd
      rw [hD] at hDo hpd hpa
      simp only at hRo hDo hpd hpa
      subst hRo; subst hDo
      rcases cR with ⟨pR, fR⟩
      rcases cD with ⟨pD, fD⟩
      rcases hrR : run_scan_items env ⟨out, config, move, false⟩ rest
        with ⟨evsR2, resR2⟩
      rcases hrD : run_scan_items env ⟨out, config, move, true⟩ rest
        with ⟨evsD2, resD2⟩
      rw [hrR, hrD] at ih1
      rw [hrD] at ih2
      simp only at ih1 ih2
      constructor
      · cases resR2 <;> cases resD2 <;>
          simp [run_scan_items, hR, hD, hrR, hrD, decisionsOf_append, hpd, ih1]
      · cases resD2 <;>
        · simp only [run_scan_items, hD, hrD]
          intro ev hev
          rcases List.mem_append.mp hev with hin | hin
          · exact hpa ev hin
          · exact ih2 ev hin

/-- Witness for C5: a one-file batch whose candidate resolves through
its embedded tag and whose client answers with a full product; every
directory creation succeeds, so the theorem applies and its conclusion
holds for this concrete run. -/
theorem dry_run_equivalence_witness :
    decisionsOf
        (run_scan_items
          ⟨⟨[], fun _ => .ok ⟨some "B0ABCD1234", none, none⟩,
              fun _ _ => .ok none⟩,
            ⟨fun _ _ => some [("product", .obj
                [("asin", .str "B0ABCD1234"), ("title", .str "My Book"),
                 ("authors", .arr [.obj [("name", .str "Jane Doe")]]),
                 ("release_date", .str "2020-01-01")])],
              fun _ _ => none, "https://www.audible.com"⟩,
            ⟨fun _ => true, fun _ _ _ => true, fun _ => .ok (),
              fun _ => .ok true, fun _ => .ok ()⟩⟩
          ⟨"/out", {}, true, false⟩
          [⟨"/in/f.m4b", "f.m4b", "in", true⟩]).1 =
      decisionsOf
        (run_scan_items
          ⟨⟨[], fun _ => .ok ⟨some "B0ABCD1234", none, none⟩,
              fun _ _ => .ok none⟩,
            ⟨fun _ _ => some [("product", .obj
                [("asin", .str "B0ABCD1234"), ("title", .str "My Book"),
                 ("authors", .arr [.obj [("name", .str "Jane Doe")]]),
                 ("release_date", .str "2020-01-01")])],
              fun _ _ => none, "https://www.audible.com"⟩,
            ⟨fun _ => true, fun _ _ _ => true, fun _ => .ok (),
              fun _ => .ok true, fun _ => .ok ()⟩⟩
          ⟨"/out", {}, true, true⟩
          [⟨"/in/f.m4b", "f.m4b", "in", true⟩]).1 ∧
    ∀ e ∈ (run_scan_items
          ⟨⟨[], fun _ => .ok ⟨some "B0ABCD1234", none, none⟩,
              fun _ _ => .ok none⟩,
            ⟨fun _ _ => some [("product", .obj
                [("asin", .str "B0ABCD1234"), ("title", .str "My Book"),
                 ("authors", .arr [.obj [("name", .str "Jane Doe")]]),
                 ("release_date", .str "2020-01-01")])],
              fun _ _ => none, "https://www.audible.com"⟩,
            ⟨fun _ => true, fun _ _ _ => true, fun _ => .ok (),
              fun _ => .ok true, fun _ => .ok ()⟩⟩
          ⟨"/out", {}, true, true⟩
          [⟨"/in/f.m4b", "f.m4b", "in", true⟩]).1,
      isDecision e = true :=
  dry_run_equivalence
    ⟨⟨[], fun _ => .ok ⟨some "B0ABCD1234", none, none⟩, fun _ _ => .ok none⟩,
      ⟨fun _ _ => some [("product", .obj
          [("asin", .str "B0ABCD1234"), ("title", .str "My Book"),
           ("authors", .arr [.obj [("name", .str "Jane Doe")]]),
           ("release_date", .str "2020-01-01")])],
        fun _ _ => none, "https://www.audible.com"⟩,
      ⟨fun _ => true, fun _ _ _ => true, fun _ => .ok (),
        fun _ => .ok true, fun _ => .ok ()⟩⟩
    "/out" {} true [⟨"/in/f.m4b", "f.m4b", "in", true⟩] (fun _ => rfl)

/-- C5 (counterexample): when a directory creation fails (the `OSError`
that `create_book_structure` catches), the real run makes *no*
`(source, destination)` decision for the file — it relocates it to the
failed folder — while the dry run, which never attempts the `mkdir`,
still logs the decision: the decision sequences differ for the same
candidate list and configuration. -/
theorem dry_run_divergence_on_mkdir_failure :
    decisionsOf
        (run_scan_items
          ⟨⟨[], fun _ => .ok ⟨some "B0ABCD1234", none, none⟩,
              fun _ _ => .ok none⟩,
            ⟨fun _ _ => some [("product", .obj
                [("asin", .str "B0ABCD1234"), ("title", .str "My Book"),
                 ("authors", .arr [.obj [("name", .str "Jane Doe")]]),
                 ("release_date", .str "2020-01-01")])],
              fun _ _ => none, "https://www.audible.com"⟩,
            ⟨fun _ => false, fun _ _ _ => true, fun _ => .ok (),
              fun _ => .ok true, fun _ => .ok ()⟩⟩
          ⟨"/out", {}, true, false⟩
          [⟨"/in/f.m4b", "f.m4b", "in", true⟩]).1 = [] ∧
    decisionsOf
        (run_scan_items
          ⟨⟨[], fun _ => .ok ⟨some "B0ABCD1234", none, none⟩,
              fun _ _ => .ok none⟩,
            ⟨fun _ _ => some [("product", .obj
                [("asin", .str "B0ABCD1234"), ("title", .str "My Book"),
                 ("authors", .arr [.obj [("name", .str "Jane Doe")]]),
                 ("release_date", .str "2020-01-01")])],
              fun _ _ => none, "https://www.audible.com"⟩,
            ⟨fun _ => false, fun _ _ _ => true, fun _ => .ok (),
              fun _ => .ok true, fun _ => .ok ()⟩⟩
          ⟨"/out", {}, true, true⟩
          [⟨"/in/f.m4b", "f.m4b", "in", true⟩]).1 =
      [.decision "/in/f.m4b"
        "/out/Jane Doe/My Book \x7bJane Doe\x7d \x7b2020\x7d/My Book \x7bJane Doe\x7d \x7b2020\x7d.m4b"] := by
  exact ⟨rfl, rfl⟩

end Organizer
